import Mathlib

/-!
# ParticleSystemCPU (DrawLoadDemo): a shallow embedding

Source: `Demos/DrawLoadDemo/Source/ParticleSystemCPU.cpp`.

Conventions of the embedding.

* `float` values are elements of a linearly ordered field `K`; the decimal
  constants of the source (`0.98f`, `0.4f`, `0.3`, ...) are the exact
  rationals they denote.  Rounding is not modelled.
* The C library functions `sqrt`, `sin`, `cos` are carried in a record
  `FloatLib K`; statements that depend on what a square root is are stated
  over `ℝ` with `Real.sqrt`, `Real.sin`, `Real.cos`.
* A field has no value that is not a number.  The one place where the
  source computes such a value from finite inputs is `normalized()` on a
  vector of zero length, reached when a particle sits exactly on the centre
  of the sphere that resolves it.  `SpherePhaseDefined` excludes that case,
  and the statements about where a live particle ends up relative to the
  ground plane assume it.
* The global generator behind `rand()` is a stream of quotients
  `rand() / (float)RAND_MAX` together with a cursor; `randf` reads the
  stream at the cursor and advances it.  The spec's contract that a draw
  lies in `[0, 1)` is the predicate `RandState.InUnit`, assumed where a
  statement needs it.
* `CPVRTArray<T>` is a `List T`; the loops over an array are recursive
  functions over the list (particle loop) or over the index (sphere loop).
  Array sizes stay below `2^32`, so the `unsigned int` counters never wrap.
* A statement about "the particle at index `i` after `Update`" reads the
  result list at `i`; the generator that iteration starts from is
  `ParticleSystemCPU.randAt`.
* A reachable state is the result of `ParticleSystemCPU.run` on a list of
  `Call`s, started from `ParticleSystemCPU.fresh`, the system as the
  constructor leaves it.
-/

namespace DrawLoadDemo

/-! ## Scalars, vectors and the matrix -/

/-- The C library functions the source calls on floats. -/
structure FloatLib (K : Type) where
  sqrt : K → K
  sin : K → K
  cos : K → K

/-- Modelled from the spec: `PVRTVec3` is declared in the PVRTools headers,
which are not part of the sources; a 3D vector with components x, y, z. -/
structure PVRTVec3 (K : Type) where
  x : K
  y : K
  z : K
deriving DecidableEq

/-- Modelled from the spec: `PVRTVec4` is declared in the PVRTools headers;
a homogeneous vector (also used for RGBA colours). -/
structure PVRTVec4 (K : Type) where
  x : K
  y : K
  z : K
  w : K
deriving DecidableEq

/-- Modelled from the spec: `PVRTMat4` is declared in the PVRTools headers;
a 4x4 transform, kept here as its four rows. -/
structure PVRTMat4 (K : Type) where
  r0 : PVRTVec4 K
  r1 : PVRTVec4 K
  r2 : PVRTVec4 K
  r3 : PVRTVec4 K
deriving DecidableEq

section VectorOps

variable {K : Type} [LinearOrderedField K]

/-- Componentwise sum, `operator+`. -/
def PVRTVec3.add (a b : PVRTVec3 K) : PVRTVec3 K :=
  ⟨a.x + b.x, a.y + b.y, a.z + b.z⟩

/-- Componentwise difference, `operator-`. -/
def PVRTVec3.sub (a b : PVRTVec3 K) : PVRTVec3 K :=
  ⟨a.x - b.x, a.y - b.y, a.z - b.z⟩

/-- Product with a scalar on the right, `operator*(float)`. -/
def PVRTVec3.scale (a : PVRTVec3 K) (s : K) : PVRTVec3 K :=
  ⟨a.x * s, a.y * s, a.z * s⟩

/-- Squared Euclidean length, `lenSqr()`. -/
def PVRTVec3.lenSqr (a : PVRTVec3 K) : K :=
  a.x * a.x + a.y * a.y + a.z * a.z

/-- Euclidean length, `length()`: the square root of `lenSqr`. -/
def PVRTVec3.length (ops : FloatLib K) (a : PVRTVec3 K) : K :=
  ops.sqrt a.lenSqr

/-- The vector scaled by the reciprocal of its length, `normalized()`.  For
a vector of zero length the source divides by zero and its components are
not numbers; the value this definition has there (the field's `1 / 0 = 0`,
so the zero vector) stands for no value of the source.  The states in which
`Update` reads it are those outside `SpherePhaseDefined`, and a statement
about the numbers a resolution writes assumes a non-zero length. -/
def PVRTVec3.normalized (ops : FloatLib K) (a : PVRTVec3 K) : PVRTVec3 K :=
  a.scale (1 / a.length ops)

/-- Conversion `PVRTVec3(const PVRTVec4&)`: the w component is dropped. -/
def PVRTVec4.toVec3 (a : PVRTVec4 K) : PVRTVec3 K :=
  ⟨a.x, a.y, a.z⟩

/-- Dot product of two homogeneous vectors. -/
def PVRTVec4.dot (a b : PVRTVec4 K) : K :=
  a.x * b.x + a.y * b.y + a.z * b.z + a.w * b.w

/-- Matrix times column vector, `PVRTMat4::operator*(const PVRTVec4&)`. -/
def PVRTMat4.mulVec (m : PVRTMat4 K) (v : PVRTVec4 K) : PVRTVec4 K :=
  ⟨m.r0.dot v, m.r1.dot v, m.r2.dot v, m.r3.dot v⟩

/-- The identity transform. -/
def PVRTMat4.identity : PVRTMat4 K :=
  ⟨⟨1, 0, 0, 0⟩, ⟨0, 1, 0, 0⟩, ⟨0, 0, 1, 0⟩, ⟨0, 0, 0, 1⟩⟩

end VectorOps

/-! ## Data model -/

/-- An opaque, non-owning handle of the shared mesh (`Mesh*`). -/
abbrev MeshRef := Nat

/-- Modelled from the spec: `Particle` is declared in `ParticleSystemCPU.h`,
which is not part of the sources; the fields are those the source file
reads and writes. -/
structure Particle (K : Type) where
  position : PVRTVec3 K
  velocity : PVRTVec3 K
  radius : K
  color : PVRTVec4 K
  lifespan : K
  pMesh : MeshRef
deriving DecidableEq

/-- Modelled from the spec: `Emitter` is declared in `ParticleSystemCPU.h`;
spawn height, spawn disc radius and the local-to-world transform. -/
structure Emitter (K : Type) where
  fHeight : K
  fRadius : K
  mTransformation : PVRTMat4 K
deriving DecidableEq

/-- Modelled from the spec: `Sphere` is declared in `ParticleSystemCPU.h`;
centre and radius of a static obstacle. -/
structure Sphere (K : Type) where
  aPosition : PVRTVec3 K
  fRadius : K
deriving DecidableEq

/-- The member variables of `class ParticleSystemCPU`. -/
structure ParticleSystemCPU (K : Type) where
  m_aParticles : List (Particle K)
  m_sEmitter : Emitter K
  m_ParticleMesh : MeshRef
  m_aSpheres : List (Sphere K)
  m_aSquaredRadii : List K
deriving DecidableEq

/-- The state of the global generator: the stream of quotients
`rand() / (float)RAND_MAX` and the number of draws made so far. -/
structure RandState (K : Type) where
  draws : Nat → K
  cursor : Nat

/-- The contract of the random source in the spec: every draw lies in `[0, 1)`. -/
def RandState.InUnit {K : Type} [LinearOrderedField K] (g : RandState K) : Prop :=
  ∀ n, 0 ≤ g.draws n ∧ g.draws n < 1

section Code

variable {K : Type} [LinearOrderedField K]

/-! ## `randf` and `EmitParticle` -/

/-- Source `randf()`: the next quotient of the stream, and the advanced generator. -/
def randf (g : RandState K) : K × RandState K :=
  (g.draws g.cursor, { g with cursor := g.cursor + 1 })

/-- Source `EmitParticle(pParticle, pEmitter, fSeed)`.  The seed is not read.  The
three colour draws are taken left to right. -/
def EmitParticle (ops : FloatLib K) (pParticle : Particle K) (pEmitter : Emitter K)
    (_fSeed : K) (g : RandState K) : Particle K × RandState K :=
  let d0 := randf g
  let rand_val := d0.1
  let d1 := randf d0.2
  let u := d1.1 * pEmitter.fHeight
  let d2 := randf d1.2
  let r := d2.1 * pEmitter.fRadius
  let pos : PVRTVec4 K := ⟨r * ops.sin rand_val, u, r * ops.cos rand_val, 1⟩
  let position := (pEmitter.mTransformation.mulVec pos).toVec3
  let velocity := (position.scale rand_val).scale 4
  let d3 := randf d2.2
  let radius := 0.3 + d3.1 * 0.6
  let d4 := randf d3.2
  let d5 := randf d4.2
  let d6 := randf d5.2
  ({ pParticle with
      position := position
      velocity := velocity
      radius := radius
      color := ⟨d4.1, d5.1, d6.1, 1⟩ }, d6.2)

/-! ## `Update` -/

/-- The `else` branch, lines 74-77: position advances by the old velocity,
then gravity is applied to the vertical velocity. -/
def integrate (step : K) (particle : Particle K) : Particle K :=
  { particle with
      position := (particle.velocity.scale step).add particle.position
      velocity := { particle.velocity with y := particle.velocity.y + step * (-0.98) } }

/-- The test of line 87 for the sphere at index `i`: the squared distance of
the particle from the centre is below the cached squared radius.  A cache
entry that does not exist reads as `0`. -/
def sphereHit (spheres : List (Sphere K)) (radii : List K) (particle : Particle K)
    (i : Nat) : Prop :=
  (particle.position.sub (spheres.getD i ⟨⟨0, 0, 0⟩, 0⟩).aPosition).lenSqr < radii.getD i 0

instance (spheres : List (Sphere K)) (radii : List K) (particle : Particle K) (i : Nat) :
    Decidable (sphereHit spheres radii particle i) := by
  unfold sphereHit; infer_instance

/-- The body of the `if` of lines 89-92: project the particle onto the
sphere surface and point the velocity radially outward at half speed. -/
def resolveSphere (ops : FloatLib K) (sphere : Sphere K) (particle : Particle K) :
    Particle K :=
  let sphere_to_next_pos := particle.position.sub sphere.aPosition
  let dir_to_circle := sphere_to_next_pos.normalized ops
  { particle with
      position := sphere.aPosition.add (dir_to_circle.scale sphere.fRadius)
      velocity := (dir_to_circle.scale (particle.velocity.length ops)).scale 0.5 }

/-- The sphere loop of lines 81-96, from index `i` with `fuel` iterations
left (`fuel = uiNumSpheres - i`); the first hit resolves and breaks. -/
def sphereLoop (ops : FloatLib K) (spheres : List (Sphere K)) (radii : List K)
    (particle : Particle K) : Nat → Nat → Particle K
  | 0, _ => particle
  | fuel + 1, i =>
    if sphereHit spheres radii particle i then
      resolveSphere ops (spheres.getD i ⟨⟨0, 0, 0⟩, 0⟩) particle
    else
      sphereLoop ops spheres radii particle fuel (i + 1)

/-- The sphere phase of one particle: the loop from index `0` over
`uiNumSpheres = m_aSpheres.GetSize()` spheres. -/
def collideSpheres (ops : FloatLib K) (spheres : List (Sphere K)) (radii : List K)
    (particle : Particle K) : Particle K :=
  sphereLoop ops spheres radii particle spheres.length 0

/-- The sphere phase is defined for this particle: the sphere that triggers
the resolution, if there is one, is at a non-zero distance from the
particle, so that `normalized()` in line 90 does not divide by zero. -/
def SpherePhaseDefined (ops : FloatLib K) (spheres : List (Sphere K)) (radii : List K)
    (particle : Particle K) : Prop :=
  ∀ (i : Nat) (s : Sphere K), spheres[i]? = some s → sphereHit spheres radii particle i →
    (∀ j, j < i → ¬ sphereHit spheres radii particle j) →
    (particle.position.sub s.aPosition).length ops ≠ 0

/-- The ground-plane test of lines 100-106. -/
def collideGround (particle : Particle K) : Particle K :=
  if particle.position.y < particle.radius then
    { particle with
        position := { particle.position with y := particle.radius }
        velocity := ⟨particle.velocity.x * 0.4, particle.velocity.y * (-0.3),
          particle.velocity.z * 0.4⟩ }
  else particle

/-- The respawn branch of lines 68-70, applied to the particle whose
lifespan has already been decremented. -/
def respawn (ops : FloatLib K) (emitter : Emitter K) (particle : Particle K)
    (g : RandState K) : Particle K × RandState K :=
  let e := EmitParticle ops particle emitter particle.lifespan g
  let l := randf e.2
  ({ e.1 with lifespan := l.1 * 19 + 12 }, l.2)

/-- One iteration of the particle loop of `Update` (lines 63-106). -/
def updateParticle (ops : FloatLib K) (emitter : Emitter K) (spheres : List (Sphere K))
    (radii : List K) (step : K) (p : Particle K) (g : RandState K) :
    Particle K × RandState K :=
  let particle := { p with lifespan := p.lifespan - step }
  if particle.lifespan < 0 then
    respawn ops emitter particle g
  else
    (collideGround (collideSpheres ops spheres radii (integrate step particle)), g)

/-- The particle loop of `Update`, in array order, threading the generator. -/
def updateLoop (ops : FloatLib K) (emitter : Emitter K) (spheres : List (Sphere K))
    (radii : List K) (step : K) : List (Particle K) → RandState K →
    List (Particle K) × RandState K
  | [], g => ([], g)
  | p :: ps, g =>
    let r := updateParticle ops emitter spheres radii step p g
    let rest := updateLoop ops emitter spheres radii step ps r.2
    (r.1 :: rest.1, rest.2)

/-- Source `ParticleSystemCPU::Update(step)`: the returned flag, the system after
the call and the generator after the call. -/
def ParticleSystemCPU.Update (ops : FloatLib K) (sys : ParticleSystemCPU K) (step : K)
    (g : RandState K) : Bool × ParticleSystemCPU K × RandState K :=
  let r := updateLoop ops sys.m_sEmitter sys.m_aSpheres sys.m_aSquaredRadii step
    sys.m_aParticles g
  (true, { sys with m_aParticles := r.1 }, r.2)

/-- The generator as it stands when the particle loop of `Update` reaches
index `i`: the loop has run over the first `i` particles. -/
def ParticleSystemCPU.randAt (ops : FloatLib K) (sys : ParticleSystemCPU K) (step : K)
    (g : RandState K) (i : Nat) : RandState K :=
  (updateLoop ops sys.m_sEmitter sys.m_aSpheres sys.m_aSquaredRadii step
    (sys.m_aParticles.take i) g).2

/-! ## Configuration -/

/-- Source `ParticleSystemCPU::SetEmitter`. -/
def ParticleSystemCPU.SetEmitter (sys : ParticleSystemCPU K) (emitter : Emitter K) :
    Bool × ParticleSystemCPU K :=
  (true, { sys with m_sEmitter := emitter })

/-- Source `ParticleSystemCPU::SetParticleMesh`. -/
def ParticleSystemCPU.SetParticleMesh (sys : ParticleSystemCPU K) (particleMesh : MeshRef) :
    Bool × ParticleSystemCPU K :=
  (true, { sys with m_ParticleMesh := particleMesh })

/-- The loop of lines 139-143: every input sphere is appended to the sphere
list and its squared radius to the cache. -/
def appendSpheres : List (Sphere K) → List (Sphere K) × List K → List (Sphere K) × List K
  | [], acc => acc
  | s :: rest, acc => appendSpheres rest (acc.1 ++ [s], acc.2 ++ [s.fRadius * s.fRadius])

/-- Source `ParticleSystemCPU::SetCollisionSpheres(pSpheres, uiNumSpheres)`, the
input array given as the list of its `uiNumSpheres` elements. -/
def ParticleSystemCPU.SetCollisionSpheres (sys : ParticleSystemCPU K)
    (pSpheres : List (Sphere K)) : Bool × ParticleSystemCPU K :=
  let r := appendSpheres pSpheres ([], [])
  (true, { sys with m_aSpheres := r.1, m_aSquaredRadii := r.2 })

/-- The loop of lines 156-161 over the freshly resized array. -/
def initLoop (mesh : MeshRef) : List (Particle K) → RandState K →
    List (Particle K) × RandState K
  | [], g => ([], g)
  | p :: ps, g =>
    let d := randf g
    let rest := initLoop mesh ps d.2
    ({ p with lifespan := d.1 * 20, radius := 0.5, pMesh := mesh } :: rest.1, rest.2)

/-- Modelled from the spec: `CPVRTArray::Clear` and `CPVRTArray::Resize` are
PVRTools code that is not part of the sources; the spec says the array is
cleared and reallocated to size `n`.  Every slot of the new array holds
`blank`, the particle the container hands out, whatever it is. -/
def clearAndResize (blank : Particle K) (n : Nat) : List (Particle K) :=
  List.replicate n blank

/-- Source `ParticleSystemCPU::SetNumberOfParticles(numParticles)`. -/
def ParticleSystemCPU.SetNumberOfParticles (blank : Particle K) (sys : ParticleSystemCPU K)
    (numParticles : Nat) (g : RandState K) : Bool × ParticleSystemCPU K × RandState K :=
  if sys.m_aParticles.length ≠ numParticles then
    let r := initLoop sys.m_ParticleMesh (clearAndResize blank numParticles) g
    (true, { sys with m_aParticles := r.1 }, r.2)
  else
    (true, sys, g)

/-! ## Sequences of calls -/

/-- One call of a public member function.  A `setNumberOfParticles` call
carries the particle the resized array hands out in its fresh slots. -/
inductive Call (K : Type) where
  | setEmitter (emitter : Emitter K)
  | setParticleMesh (particleMesh : MeshRef)
  | setCollisionSpheres (pSpheres : List (Sphere K))
  | setNumberOfParticles (numParticles : Nat) (blank : Particle K)
  | update (step : K)

/-- The effect of one call on the system and on the global generator. -/
def ParticleSystemCPU.call (ops : FloatLib K) (c : Call K)
    (st : ParticleSystemCPU K × RandState K) : ParticleSystemCPU K × RandState K :=
  match c with
  | .setEmitter emitter => ((st.1.SetEmitter emitter).2, st.2)
  | .setParticleMesh particleMesh => ((st.1.SetParticleMesh particleMesh).2, st.2)
  | .setCollisionSpheres pSpheres => ((st.1.SetCollisionSpheres pSpheres).2, st.2)
  | .setNumberOfParticles numParticles blank =>
    (st.1.SetNumberOfParticles blank numParticles st.2).2
  | .update step => (st.1.Update ops step st.2).2

/-- A sequence of calls, first call first. -/
def ParticleSystemCPU.run (ops : FloatLib K) :
    List (Call K) → ParticleSystemCPU K × RandState K → ParticleSystemCPU K × RandState K
  | [], st => st
  | c :: cs, st => ParticleSystemCPU.run ops cs (ParticleSystemCPU.call ops c st)

/-- The system right after the constructor `ParticleSystemCPU()`: the three
arrays are empty; the emitter and the mesh pointer are not initialised by
the constructor and are whatever the two arguments say. -/
def ParticleSystemCPU.fresh (emitter : Emitter K) (mesh : MeshRef) : ParticleSystemCPU K :=
  ⟨[], emitter, mesh, [], []⟩

/-- The test of line 66 on a particle of the array: its lifespan, once
decremented by `step`, is negative, so the particle is respawned. -/
def expires (step : K) (p : Particle K) : Bool :=
  decide (p.lifespan - step < 0)

/-- The radius range of the spec: the default `0.5` of a resized array, or
an emitted radius in `[0.3, 0.9)`. -/
def Particle.RadiusOk (p : Particle K) : Prop :=
  p.radius = 0.5 ∨ (0.3 ≤ p.radius ∧ p.radius < 0.9)

end Code

/-! ## Concrete inputs -/

section Inputs

variable (K : Type) [LinearOrderedField K]

/-- A generator whose every draw is `1/2`. -/
def halfRand : RandState K := ⟨fun _ => 1 / 2, 0⟩

/-- The emitter of the spec's scenario: height 1, radius 1, identity transform. -/
def unitEmitter : Emitter K := ⟨1, 1, PVRTMat4.identity⟩

/-- A particle whose lifespan has run out. -/
def expiredParticle : Particle K := ⟨⟨0, 1, 0⟩, ⟨0, 0, 0⟩, 0.5, ⟨1, 1, 1, 1⟩, -1, 7⟩

/-- A live particle falling towards the ground plane. -/
def fallingParticle : Particle K := ⟨⟨0, 1, 0⟩, ⟨1, -20, 2⟩, 0.5, ⟨1, 1, 1, 1⟩, 5, 7⟩

/-- A field with one expired and one falling particle and no spheres. -/
def groundField : ParticleSystemCPU K :=
  ⟨[expiredParticle K, fallingParticle K], unitEmitter K, 7, [], []⟩

/-- Three spheres with their squared-radius cache: a far one, then two that
both contain the point `(0.1, -1, 0.2)`. -/
def demoSpheres : List (Sphere K) :=
  [⟨⟨10, 10, 10⟩, 1⟩, ⟨⟨0, 0, 0⟩, 2⟩, ⟨⟨0, -1, 0⟩, 3⟩]

/-- The field of `groundField` with the three spheres installed. -/
def sphereField : ParticleSystemCPU K :=
  ⟨[expiredParticle K, fallingParticle K], unitEmitter K, 7, demoSpheres K, [1, 4, 9]⟩

/-- A live particle high above the spheres, moving upwards. -/
def risingParticle : Particle K := ⟨⟨0, 5, 0⟩, ⟨1, 2, 3⟩, 0.5, ⟨1, 0, 0, 1⟩, 5, 7⟩

/-- A field with the rising particle alone among the three spheres. -/
def risingField : ParticleSystemCPU K :=
  ⟨[risingParticle K], unitEmitter K, 7, demoSpheres K, [1, 4, 9]⟩

/-- A particle as a freshly resized array might hold it. -/
def blankParticle : Particle K := ⟨⟨0, 0, 0⟩, ⟨0, 0, 0⟩, 0, ⟨0, 0, 0, 0⟩, 0, 0⟩

/-- A generator whose draws are `1/2, 1/3, 1/4, ...`. -/
def harmonicRand : RandState K := ⟨fun n => 1 / ((n : K) + 2), 0⟩

/-- A second expired particle, with another mesh reference. -/
def expiredParticle2 : Particle K := ⟨⟨3, 1, 0⟩, ⟨0, 0, 0⟩, 0.5, ⟨1, 1, 1, 1⟩, -2, 8⟩

/-- A sphere list with a sphere of negative radius. -/
def negativeSpheres : List (Sphere K) := [⟨⟨0, 0, 0⟩, -2⟩]

/-- A field with the two expired particles, in the given order. -/
def expiredField (first second : Particle K) : ParticleSystemCPU K :=
  ⟨[first, second], unitEmitter K, 7, [], []⟩

/-- A live particle at rest at the point `(0, 10, 0)`. -/
def centreParticle : Particle K := ⟨⟨0, 10, 0⟩, ⟨0, 0, 0⟩, 0.5, ⟨1, 1, 1, 1⟩, 5, 7⟩

/-- A field whose only sphere, of radius 2, is centred on its only particle. -/
def centreField : ParticleSystemCPU K :=
  ⟨[centreParticle K], unitEmitter K, 7, [⟨⟨0, 10, 0⟩, 2⟩], [4]⟩

end Inputs

/-! ## The particle loop, index by index -/

section Loop

variable {K : Type} [LinearOrderedField K]

theorem updateLoop_length (ops : FloatLib K) (em : Emitter K) (sp : List (Sphere K))
    (ra : List K) (dt : K) (l : List (Particle K)) (g : RandState K) :
    (updateLoop ops em sp ra dt l g).1.length = l.length := by
  induction l generalizing g with
  | nil => rfl
  | cons p ps ih => simp [updateLoop, ih]

/-- The particle at index `i` after the loop is the loop body applied to the
particle at index `i` before it, with the generator left by the first `i`
iterations. -/
theorem updateLoop_get (ops : FloatLib K) (em : Emitter K) (sp : List (Sphere K))
    (ra : List K) (dt : K) (l : List (Particle K)) (g : RandState K) (i : Nat)
    (p : Particle K) (h : l[i]? = some p) :
    (updateLoop ops em sp ra dt l g).1[i]? =
      some (updateParticle ops em sp ra dt p (updateLoop ops em sp ra dt (l.take i) g).2).1 := by
  induction l generalizing g i with
  | nil => simp at h
  | cons a as ih =>
    cases i with
    | zero =>
      simp at h
      subst h
      simp [updateLoop]
    | succ j =>
      simp at h
      simpa [updateLoop] using ih _ j h

theorem Update_get (ops : FloatLib K) (sys : ParticleSystemCPU K) (dt : K)
    (g : RandState K) (i : Nat) (p : Particle K) (h : sys.m_aParticles[i]? = some p) :
    (sys.Update ops dt g).2.1.m_aParticles[i]? =
      some (updateParticle ops sys.m_sEmitter sys.m_aSpheres sys.m_aSquaredRadii dt p
        (sys.randAt ops dt g i)).1 := by
  simpa [ParticleSystemCPU.Update, ParticleSystemCPU.randAt] using
    updateLoop_get ops sys.m_sEmitter sys.m_aSpheres sys.m_aSquaredRadii dt
      sys.m_aParticles g i p h

/-- After the ground-plane test a particle is never below its radius. -/
theorem collideGround_floor (p : Particle K) :
    (collideGround p).radius ≤ (collideGround p).position.y := by
  unfold collideGround
  split
  · simp
  · rename_i h
    exact not_lt.mp h

/-- The two branches of the ground-plane test. -/
theorem collideGround_cases (m : Particle K) :
    (m.position.y < m.radius →
      (collideGround m).position = ⟨m.position.x, m.radius, m.position.z⟩ ∧
      (collideGround m).velocity =
        ⟨0.4 * m.velocity.x, -0.3 * m.velocity.y, 0.4 * m.velocity.z⟩) ∧
    (¬ m.position.y < m.radius →
      (collideGround m).position = m.position ∧ (collideGround m).velocity = m.velocity) := by
  constructor
  · intro h
    simp only [collideGround, h, if_true, true_and]
    congr 1 <;> ring
  · intro h
    simp only [collideGround, h, if_false, and_self]

theorem collideGround_radius (p : Particle K) : (collideGround p).radius = p.radius := by
  unfold collideGround
  split <;> rfl

/-- A particle that stays alive goes through integration, the sphere phase
and the ground-plane test, and draws no random number. -/
theorem updateParticle_alive (ops : FloatLib K) (em : Emitter K) (sp : List (Sphere K))
    (ra : List K) (dt : K) (p : Particle K) (g : RandState K) (h : ¬ p.lifespan - dt < 0) :
    updateParticle ops em sp ra dt p g =
      (collideGround (collideSpheres ops sp ra
        (integrate dt { p with lifespan := p.lifespan - dt })), g) := by
  simp [updateParticle, h]

/-- A particle whose lifespan drops below zero is respawned. -/
theorem updateParticle_respawn (ops : FloatLib K) (em : Emitter K) (sp : List (Sphere K))
    (ra : List K) (dt : K) (p : Particle K) (g : RandState K) (h : p.lifespan - dt < 0) :
    updateParticle ops em sp ra dt p g =
      respawn ops em { p with lifespan := p.lifespan - dt } g := by
  simp [updateParticle, h]

/-! ### The generator's stream is never rewritten -/

theorem EmitParticle_draws (ops : FloatLib K) (p : Particle K) (em : Emitter K) (seed : K)
    (g : RandState K) : (EmitParticle ops p em seed g).2.draws = g.draws := rfl

theorem EmitParticle_cursor (ops : FloatLib K) (p : Particle K) (em : Emitter K) (seed : K)
    (g : RandState K) : (EmitParticle ops p em seed g).2.cursor = g.cursor + 7 := rfl

theorem respawn_draws (ops : FloatLib K) (em : Emitter K) (p : Particle K)
    (g : RandState K) : (respawn ops em p g).2.draws = g.draws := rfl

theorem updateParticle_draws (ops : FloatLib K) (em : Emitter K) (sp : List (Sphere K))
    (ra : List K) (dt : K) (p : Particle K) (g : RandState K) :
    (updateParticle ops em sp ra dt p g).2.draws = g.draws := by
  by_cases h : p.lifespan - dt < 0
  · rw [updateParticle_respawn ops em sp ra dt p g h, respawn_draws]
  · rw [updateParticle_alive ops em sp ra dt p g h]

theorem updateLoop_draws (ops : FloatLib K) (em : Emitter K) (sp : List (Sphere K))
    (ra : List K) (dt : K) (l : List (Particle K)) (g : RandState K) :
    (updateLoop ops em sp ra dt l g).2.draws = g.draws := by
  induction l generalizing g with
  | nil => rfl
  | cons p ps ih => simp [updateLoop, ih, updateParticle_draws]

theorem randAt_draws (ops : FloatLib K) (sys : ParticleSystemCPU K) (dt : K)
    (g : RandState K) (i : Nat) : (sys.randAt ops dt g i).draws = g.draws :=
  updateLoop_draws _ _ _ _ _ _ _

/-- The lifespan written by a respawn is `12 + 19 * x` for the eighth draw
`x` made from the generator the respawn starts with. -/
theorem respawn_lifespan (ops : FloatLib K) (em : Emitter K) (p : Particle K)
    (g : RandState K) :
    (respawn ops em p g).1.lifespan = g.draws (g.cursor + 7) * 19 + 12 := rfl

theorem respawn_lifespan_range (ops : FloatLib K) (em : Emitter K) (p : Particle K)
    (g : RandState K) (hg : g.InUnit) :
    12 ≤ (respawn ops em p g).1.lifespan ∧ (respawn ops em p g).1.lifespan < 31 := by
  rw [respawn_lifespan]
  obtain ⟨h0, h1⟩ := hg (g.cursor + 7)
  constructor <;> linarith

/-! ### What the phases of a live particle leave alone -/

theorem sphereLoop_frame (ops : FloatLib K) (sp : List (Sphere K)) (ra : List K)
    (p : Particle K) (fuel i : Nat) :
    (sphereLoop ops sp ra p fuel i).radius = p.radius ∧
    (sphereLoop ops sp ra p fuel i).color = p.color ∧
    (sphereLoop ops sp ra p fuel i).lifespan = p.lifespan ∧
    (sphereLoop ops sp ra p fuel i).pMesh = p.pMesh := by
  induction fuel generalizing i with
  | zero => simp [sphereLoop]
  | succ n ih =>
    unfold sphereLoop
    split
    · simp [resolveSphere]
    · exact ih (i + 1)

theorem collideSpheres_frame (ops : FloatLib K) (sp : List (Sphere K)) (ra : List K)
    (p : Particle K) :
    (collideSpheres ops sp ra p).radius = p.radius ∧
    (collideSpheres ops sp ra p).color = p.color ∧
    (collideSpheres ops sp ra p).lifespan = p.lifespan ∧
    (collideSpheres ops sp ra p).pMesh = p.pMesh :=
  sphereLoop_frame ops sp ra p _ _

theorem collideGround_frame (p : Particle K) :
    (collideGround p).radius = p.radius ∧ (collideGround p).color = p.color ∧
    (collideGround p).lifespan = p.lifespan ∧ (collideGround p).pMesh = p.pMesh := by
  unfold collideGround
  split <;> simp

/-- The lifespan of a particle that stays alive is the decremented one. -/
theorem updateParticle_alive_lifespan (ops : FloatLib K) (em : Emitter K)
    (sp : List (Sphere K)) (ra : List K) (dt : K) (p : Particle K) (g : RandState K)
    (h : ¬ p.lifespan - dt < 0) :
    (updateParticle ops em sp ra dt p g).1.lifespan = p.lifespan - dt := by
  rw [updateParticle_alive ops em sp ra dt p g h]
  simp [(collideGround_frame _).2.2.1, (collideSpheres_frame ops sp ra _).2.2.1, integrate]

/-! ### The sphere loop -/

theorem sphereLoop_no_hit (ops : FloatLib K) (sp : List (Sphere K)) (ra : List K)
    (p : Particle K) (fuel i : Nat)
    (h : ∀ j, j < fuel → ¬ sphereHit sp ra p (i + j)) :
    sphereLoop ops sp ra p fuel i = p := by
  induction fuel generalizing i with
  | zero => rfl
  | succ n ih =>
    have h0 : ¬ sphereHit sp ra p i := by simpa using h 0 (Nat.succ_pos n)
    simp only [sphereLoop, h0, if_false]
    apply ih
    intro j hj
    have := h (j + 1) (Nat.succ_lt_succ hj)
    rwa [show i + (j + 1) = i + 1 + j by omega] at this

theorem sphereLoop_first_hit (ops : FloatLib K) (sp : List (Sphere K)) (ra : List K)
    (p : Particle K) (fuel i k : Nat) (hk : k < fuel)
    (hhit : sphereHit sp ra p (i + k))
    (hmiss : ∀ j, j < k → ¬ sphereHit sp ra p (i + j)) :
    sphereLoop ops sp ra p fuel i =
      resolveSphere ops (sp.getD (i + k) ⟨⟨0, 0, 0⟩, 0⟩) p := by
  induction fuel generalizing i k with
  | zero => omega
  | succ n ih =>
    cases k with
    | zero =>
      have h0 : sphereHit sp ra p i := by simpa using hhit
      simp [sphereLoop, h0]
    | succ m =>
      have h0 : ¬ sphereHit sp ra p i := by simpa using hmiss 0 (Nat.succ_pos m)
      simp only [sphereLoop, h0, if_false]
      rw [ih (i + 1) m (by omega)
        (by rwa [show i + 1 + m = i + (m + 1) by omega])
        (fun j hj => by
          have := hmiss (j + 1) (Nat.succ_lt_succ hj)
          rwa [show i + (j + 1) = i + 1 + j by omega] at this)]
      rw [show i + 1 + m = i + (m + 1) by omega]

/-- The sphere phase resolves against the first sphere, in list order, that
passes the test, and against no other. -/
theorem collideSpheres_first_hit (ops : FloatLib K) (sp : List (Sphere K)) (ra : List K)
    (p : Particle K) (i : Nat) (s : Sphere K) (hs : sp[i]? = some s)
    (hhit : sphereHit sp ra p i) (hmiss : ∀ j, j < i → ¬ sphereHit sp ra p j) :
    collideSpheres ops sp ra p = resolveSphere ops s p := by
  have hi : i < sp.length := by
    by_contra hcon
    rw [List.getElem?_eq_none (not_lt.mp hcon)] at hs
    exact Option.noConfusion hs
  have hget : sp.getD i ⟨⟨0, 0, 0⟩, 0⟩ = s := by
    simp [List.getD_eq_getElem?_getD, hs]
  unfold collideSpheres
  rw [sphereLoop_first_hit ops sp ra p sp.length 0 i hi (by simpa using hhit)
    (fun j hj => by simpa using hmiss j hj)]
  rw [Nat.zero_add, hget]

/-- With no sphere passing the test the sphere phase changes nothing. -/
theorem collideSpheres_no_hit (ops : FloatLib K) (sp : List (Sphere K)) (ra : List K)
    (p : Particle K) (h : ∀ j, j < sp.length → ¬ sphereHit sp ra p j) :
    collideSpheres ops sp ra p = p :=
  sphereLoop_no_hit ops sp ra p sp.length 0 (fun j hj => by simpa using h j hj)

end Loop

/-! ## C1: ground floor -/

/-- In `sphereField` the falling particle, integrated over `1/10`, is first
hit by the sphere at the origin, at distance `√1.05`: the sphere phase is
defined for it. -/
theorem sphereField_defined :
    SpherePhaseDefined ⟨Real.sqrt, Real.sin, Real.cos⟩ (sphereField ℝ).m_aSpheres
      (sphereField ℝ).m_aSquaredRadii
      (integrate (1 / 10)
        { fallingParticle ℝ with lifespan := (fallingParticle ℝ).lifespan - 1 / 10 }) := by
  intro i s hs hhit hfirst
  have hi : i < 3 := by
    by_contra hcon
    rw [List.getElem?_eq_none (by simpa [sphereField, demoSpheres] using not_lt.mp hcon)] at hs
    exact Option.noConfusion hs
  interval_cases i
  · exfalso
    revert hhit
    norm_num [sphereHit, sphereField, demoSpheres, integrate, fallingParticle,
      PVRTVec3.sub, PVRTVec3.add, PVRTVec3.scale, PVRTVec3.lenSqr]
  · have hs1 : s = ⟨⟨0, 0, 0⟩, 2⟩ := by
      simpa [sphereField, demoSpheres] using hs.symm
    subst hs1
    apply ne_of_gt
    apply Real.sqrt_pos.mpr
    norm_num [integrate, fallingParticle, PVRTVec3.sub, PVRTVec3.add, PVRTVec3.scale,
      PVRTVec3.lenSqr]
  · exfalso
    apply hfirst 1 (by norm_num)
    norm_num [sphereHit, sphereField, demoSpheres, integrate, fallingParticle,
      PVRTVec3.sub, PVRTVec3.add, PVRTVec3.scale, PVRTVec3.lenSqr]

/-- C2: for `dt ≥ 0` and a generator with draws in `[0, 1)`, a particle whose
lifespan is negative before `Update(dt)` has afterwards lifespan
`12 + 19 * x` for a draw `x` (so at least 12), and its position, velocity,
radius and colour are exactly those `EmitParticle` produced for the current
emitter from the generator as it stood when the loop reached the particle:
no integration, sphere resolution or ground-plane clamp is applied. -/
theorem respawn_invariant {K : Type} [LinearOrderedField K] (ops : FloatLib K)
    (sys : ParticleSystemCPU K) (dt : K) (g : RandState K) (i : Nat) (p : Particle K)
    (hg : g.InUnit) (hdt : 0 ≤ dt) (hp : sys.m_aParticles[i]? = some p)
    (hl : p.lifespan < 0) :
    ∃ q x, (sys.Update ops dt g).2.1.m_aParticles[i]? = some q ∧
      x = (randf (EmitParticle ops { p with lifespan := p.lifespan - dt } sys.m_sEmitter
        (p.lifespan - dt) (sys.randAt ops dt g i)).2).1 ∧
      q.lifespan = 12 + 19 * x ∧ 12 ≤ q.lifespan ∧
      q.position = (EmitParticle ops { p with lifespan := p.lifespan - dt } sys.m_sEmitter
        (p.lifespan - dt) (sys.randAt ops dt g i)).1.position ∧
      q.velocity = (EmitParticle ops { p with lifespan := p.lifespan - dt } sys.m_sEmitter
        (p.lifespan - dt) (sys.randAt ops dt g i)).1.velocity ∧
      q.radius = (EmitParticle ops { p with lifespan := p.lifespan - dt } sys.m_sEmitter
        (p.lifespan - dt) (sys.randAt ops dt g i)).1.radius ∧
      q.color = (EmitParticle ops { p with lifespan := p.lifespan - dt } sys.m_sEmitter
        (p.lifespan - dt) (sys.randAt ops dt g i)).1.color := by
  have hneg : p.lifespan - dt < 0 := by linarith
  have hgi : (sys.randAt ops dt g i).InUnit := by
    intro n
    rw [randAt_draws]
    exact hg n
  refine ⟨_, _, Update_get ops sys dt g i p hp, rfl, ?_⟩
  rw [updateParticle_respawn ops _ _ _ dt p _ hneg]
  refine ⟨?_, (respawn_lifespan_range ops _ _ _ hgi).1, rfl, rfl, rfl, rfl⟩
  rw [respawn_lifespan]
  simp only [randf, EmitParticle_draws, EmitParticle_cursor]
  ring

theorem respawn_invariant_witness :
    (halfRand ℝ).InUnit ∧ (0 : ℝ) ≤ 1 / 10 ∧
    (groundField ℝ).m_aParticles[0]? = some (expiredParticle ℝ) ∧
    (expiredParticle ℝ).lifespan < 0 ∧
    ∃ q x, ((groundField ℝ).Update ⟨Real.sqrt, Real.sin, Real.cos⟩ (1 / 10)
        (halfRand ℝ)).2.1.m_aParticles[0]? = some q ∧
      x = (randf (EmitParticle ⟨Real.sqrt, Real.sin, Real.cos⟩
        { expiredParticle ℝ with lifespan := (expiredParticle ℝ).lifespan - 1 / 10 }
        (groundField ℝ).m_sEmitter ((expiredParticle ℝ).lifespan - 1 / 10)
        ((groundField ℝ).randAt ⟨Real.sqrt, Real.sin, Real.cos⟩ (1 / 10) (halfRand ℝ) 0)).2).1 ∧
      q.lifespan = 12 + 19 * x ∧ 12 ≤ q.lifespan ∧
      q.position = (EmitParticle ⟨Real.sqrt, Real.sin, Real.cos⟩
        { expiredParticle ℝ with lifespan := (expiredParticle ℝ).lifespan - 1 / 10 }
        (groundField ℝ).m_sEmitter ((expiredParticle ℝ).lifespan - 1 / 10)
        ((groundField ℝ).randAt ⟨Real.sqrt, Real.sin, Real.cos⟩ (1 / 10)
          (halfRand ℝ) 0)).1.position ∧
      q.velocity = (EmitParticle ⟨Real.sqrt, Real.sin, Real.cos⟩
        { expiredParticle ℝ with lifespan := (expiredParticle ℝ).lifespan - 1 / 10 }
        (groundField ℝ).m_sEmitter ((expiredParticle ℝ).lifespan - 1 / 10)
        ((groundField ℝ).randAt ⟨Real.sqrt, Real.sin, Real.cos⟩ (1 / 10)
          (halfRand ℝ) 0)).1.velocity ∧
      q.radius = (EmitParticle ⟨Real.sqrt, Real.sin, Real.cos⟩
        { expiredParticle ℝ with lifespan := (expiredParticle ℝ).lifespan - 1 / 10 }
        (groundField ℝ).m_sEmitter ((expiredParticle ℝ).lifespan - 1 / 10)
        ((groundField ℝ).randAt ⟨Real.sqrt, Real.sin, Real.cos⟩ (1 / 10)
          (halfRand ℝ) 0)).1.radius ∧
      q.color = (EmitParticle ⟨Real.sqrt, Real.sin, Real.cos⟩
        { expiredParticle ℝ with lifespan := (expiredParticle ℝ).lifespan - 1 / 10 }
        (groundField ℝ).m_sEmitter ((expiredParticle ℝ).lifespan - 1 / 10)
        ((groundField ℝ).randAt ⟨Real.sqrt, Real.sin, Real.cos⟩ (1 / 10)
          (halfRand ℝ) 0)).1.color :=
  ⟨fun n => by norm_num [halfRand], by norm_num, by simp [groundField],
    by norm_num [expiredParticle],
    respawn_invariant _ (groundField ℝ) (1 / 10) (halfRand ℝ) 0 (expiredParticle ℝ)
      (fun n => by norm_num [halfRand]) (by norm_num) (by simp [groundField])
      (by norm_num [expiredParticle])⟩

/-! ## C3: lifespan -/

/-- C3, as stated, fails at `dt = 0`: the falling particle (lifespan 5) is
not respawned by `Update(0)` and its lifespan afterwards is still 5, not
strictly smaller. -/
theorem lifespan_not_strictly_decreasing_at_zero_step :
    (halfRand ℝ).InUnit ∧ (0 : ℝ) ≤ 0 ∧
    ¬ ∀ (i : Nat) (p q : Particle ℝ), (groundField ℝ).m_aParticles[i]? = some p →
        ((groundField ℝ).Update ⟨Real.sqrt, Real.sin, Real.cos⟩ 0
          (halfRand ℝ)).2.1.m_aParticles[i]? = some q →
        q.lifespan < p.lifespan ∨
          (p.lifespan - 0 < 0 ∧ 12 ≤ q.lifespan ∧ q.lifespan < 31) := by
  refine ⟨fun n => by norm_num [halfRand], le_refl _, ?_⟩
  intro h
  have h1 := h 1 (fallingParticle ℝ) _ (by simp [groundField])
    (Update_get _ (groundField ℝ) 0 (halfRand ℝ) 1 (fallingParticle ℝ) (by simp [groundField]))
  rw [updateParticle_alive_lifespan _ _ _ _ _ _ _ (by norm_num [fallingParticle])] at h1
  norm_num [fallingParticle] at h1

/-- C3, amended: for `dt ≥ 0` and a generator with draws in `[0, 1)`, either
the particle stays alive and its lifespan after `Update(dt)` is
`lifespan - dt`, which is not larger than before and strictly smaller when
`dt > 0`; or `lifespan - dt < 0` and the lifespan afterwards lies in
`[12, 31)`. -/
theorem lifespan_step {K : Type} [LinearOrderedField K] (ops : FloatLib K)
    (sys : ParticleSystemCPU K) (dt : K) (g : RandState K) (i : Nat) (p : Particle K)
    (hg : g.InUnit) (hdt : 0 ≤ dt) (hp : sys.m_aParticles[i]? = some p) :
    ∃ q, (sys.Update ops dt g).2.1.m_aParticles[i]? = some q ∧
      ((¬ p.lifespan - dt < 0 ∧ q.lifespan = p.lifespan - dt ∧ q.lifespan ≤ p.lifespan ∧
          (0 < dt → q.lifespan < p.lifespan)) ∨
        (p.lifespan - dt < 0 ∧ 12 ≤ q.lifespan ∧ q.lifespan < 31)) := by
  refine ⟨_, Update_get ops sys dt g i p hp, ?_⟩
  by_cases h : p.lifespan - dt < 0
  · right
    have hgi : (sys.randAt ops dt g i).InUnit := by
      intro n
      rw [randAt_draws]
      exact hg n
    rw [updateParticle_respawn ops _ _ _ dt p _ h]
    exact ⟨h, respawn_lifespan_range ops _ _ _ hgi⟩
  · left
    rw [updateParticle_alive_lifespan ops _ _ _ dt p _ h]
    exact ⟨h, rfl, by linarith, fun hpos => by linarith⟩

theorem lifespan_step_witness :
    (halfRand ℝ).InUnit ∧ (0 : ℝ) ≤ 1 / 10 ∧
    (groundField ℝ).m_aParticles[1]? = some (fallingParticle ℝ) ∧
    ∃ q, ((groundField ℝ).Update ⟨Real.sqrt, Real.sin, Real.cos⟩ (1 / 10)
        (halfRand ℝ)).2.1.m_aParticles[1]? = some q ∧
      ((¬ (fallingParticle ℝ).lifespan - 1 / 10 < 0 ∧
          q.lifespan = (fallingParticle ℝ).lifespan - 1 / 10 ∧
          q.lifespan ≤ (fallingParticle ℝ).lifespan ∧
          ((0 : ℝ) < 1 / 10 → q.lifespan < (fallingParticle ℝ).lifespan)) ∨
        ((fallingParticle ℝ).lifespan - 1 / 10 < 0 ∧ 12 ≤ q.lifespan ∧ q.lifespan < 31)) :=
  ⟨fun n => by norm_num [halfRand], by norm_num, by simp [groundField],
    lifespan_step _ (groundField ℝ) (1 / 10) (halfRand ℝ) 1 (fallingParticle ℝ)
      (fun n => by norm_num [halfRand]) (by norm_num) (by simp [groundField])⟩

/-! ## Euclidean facts over the reals -/

section Geometry

theorem lenSqr_nonneg {K : Type} [LinearOrderedField K] (a : PVRTVec3 K) : 0 ≤ a.lenSqr := by
  unfold PVRTVec3.lenSqr
  nlinarith [mul_self_nonneg a.x, mul_self_nonneg a.y, mul_self_nonneg a.z]

theorem lenSqr_scale {K : Type} [LinearOrderedField K] (a : PVRTVec3 K) (s : K) :
    (a.scale s).lenSqr = s * s * a.lenSqr := by
  simp only [PVRTVec3.lenSqr, PVRTVec3.scale]
  ring

/-- Two distinct points have a positive squared distance. -/
theorem lenSqr_sub_pos {K : Type} [LinearOrderedField K] (a b : PVRTVec3 K) (h : a ≠ b) :
    0 < (a.sub b).lenSqr := by
  rcases lt_or_eq_of_le (lenSqr_nonneg (a.sub b)) with hpos | hzero
  · exact hpos
  · exfalso
    apply h
    simp only [PVRTVec3.lenSqr, PVRTVec3.sub] at hzero
    have hx : a.x - b.x = 0 := by
      nlinarith [mul_self_nonneg (a.x - b.x), mul_self_nonneg (a.y - b.y),
        mul_self_nonneg (a.z - b.z)]
    have hy : a.y - b.y = 0 := by
      nlinarith [mul_self_nonneg (a.x - b.x), mul_self_nonneg (a.y - b.y),
        mul_self_nonneg (a.z - b.z)]
    have hz : a.z - b.z = 0 := by
      nlinarith [mul_self_nonneg (a.x - b.x), mul_self_nonneg (a.y - b.y),
        mul_self_nonneg (a.z - b.z)]
    cases a
    cases b
    simp only [PVRTVec3.mk.injEq]
    exact ⟨sub_eq_zero.mp hx, sub_eq_zero.mp hy, sub_eq_zero.mp hz⟩

theorem add_sub_cancel_vec {K : Type} [LinearOrderedField K] (c v : PVRTVec3 K) :
    (c.add v).sub c = v := by
  cases c
  cases v
  simp [PVRTVec3.add, PVRTVec3.sub]

/-- Scaling by a non-negative factor scales the length by it. -/
theorem length_scale (a : PVRTVec3 ℝ) (s : ℝ) (hs : 0 ≤ s) :
    (a.scale s).length ⟨Real.sqrt, Real.sin, Real.cos⟩ =
      s * a.length ⟨Real.sqrt, Real.sin, Real.cos⟩ := by
  simp only [PVRTVec3.length, lenSqr_scale]
  rw [Real.sqrt_mul (mul_self_nonneg s), Real.sqrt_mul_self hs]

/-- A vector of non-zero length is normalized to a unit vector. -/
theorem length_normalized (a : PVRTVec3 ℝ) (h : 0 < a.lenSqr) :
    (a.normalized ⟨Real.sqrt, Real.sin, Real.cos⟩).length ⟨Real.sqrt, Real.sin, Real.cos⟩
      = 1 := by
  have hpos : 0 < Real.sqrt a.lenSqr := Real.sqrt_pos.mpr h
  unfold PVRTVec3.normalized
  rw [length_scale a _ (by positivity)]
  simp only [PVRTVec3.length]
  field_simp

end Geometry

/-! ## C4: the resolved position lies on the sphere -/

/-- C4: over the reals, when the sphere `s` at index `i` is the one that
triggers resolution for a particle `p1` entering the sphere phase (first
index passing the squared-distance test), `s` has positive radius and `p1`
is not at the centre of `s`, the position written by the sphere phase is at
distance exactly `s.fRadius` from the centre. -/
theorem resolved_position_on_sphere (sp : List (Sphere ℝ)) (ra : List ℝ) (p1 : Particle ℝ)
    (i : Nat) (s : Sphere ℝ) (hs : sp[i]? = some s) (hhit : sphereHit sp ra p1 i)
    (hfirst : ∀ j, j < i → ¬ sphereHit sp ra p1 j) (hr : 0 < s.fRadius)
    (hne : p1.position ≠ s.aPosition) :
    (((collideSpheres ⟨Real.sqrt, Real.sin, Real.cos⟩ sp ra p1).position).sub
        s.aPosition).length ⟨Real.sqrt, Real.sin, Real.cos⟩ = s.fRadius := by
  rw [collideSpheres_first_hit _ sp ra p1 i s hs hhit hfirst]
  simp only [resolveSphere, add_sub_cancel_vec]
  rw [length_scale _ _ hr.le, length_normalized _ (lenSqr_sub_pos _ _ hne), mul_one]

theorem resolved_position_on_sphere_witness :
    (demoSpheres ℝ)[1]? = some ⟨⟨0, 0, 0⟩, 2⟩ ∧
    sphereHit (demoSpheres ℝ) [1, 4, 9] (integrate (1 / 10) (fallingParticle ℝ)) 1 ∧
    (((collideSpheres ⟨Real.sqrt, Real.sin, Real.cos⟩ (demoSpheres ℝ) [1, 4, 9]
        (integrate (1 / 10) (fallingParticle ℝ))).position).sub
        ⟨0, 0, 0⟩).length ⟨Real.sqrt, Real.sin, Real.cos⟩ = 2 := by
  have hs : (demoSpheres ℝ)[1]? = some ⟨⟨0, 0, 0⟩, 2⟩ := by simp [demoSpheres]
  have hhit : sphereHit (demoSpheres ℝ) [1, 4, 9] (integrate (1 / 10) (fallingParticle ℝ)) 1 := by
    norm_num [sphereHit, demoSpheres, integrate, fallingParticle,
      PVRTVec3.sub, PVRTVec3.add, PVRTVec3.scale, PVRTVec3.lenSqr]
  refine ⟨hs, hhit, ?_⟩
  exact resolved_position_on_sphere (demoSpheres ℝ) [1, 4, 9]
    (integrate (1 / 10) (fallingParticle ℝ)) 1 ⟨⟨0, 0, 0⟩, 2⟩ hs hhit
    (fun j hj => by
      interval_cases j
      norm_num [sphereHit, demoSpheres, integrate, fallingParticle,
        PVRTVec3.sub, PVRTVec3.add, PVRTVec3.scale, PVRTVec3.lenSqr])
    (by norm_num)
    (by norm_num [integrate, fallingParticle, PVRTVec3.add, PVRTVec3.scale])

/-! ## C6: bounce velocity -/

/-- C6: over the reals, when sphere `s` triggers resolution for a live
particle `p` in a step `dt` and the integrated position is not the centre,
the velocity written is `d * |v| * 0.5` with `d` the unit vector from the
centre to the integrated position and `v = (vx, vy + dt * -0.98, vz)` the
velocity after this step's gravity update; its length is half of `|v|`, and
it is the same for every velocity of the same length. -/
theorem bounce_velocity (sp : List (Sphere ℝ)) (ra : List ℝ) (p : Particle ℝ) (dt : ℝ)
    (i : Nat) (s : Sphere ℝ) (hs : sp[i]? = some s)
    (hhit : sphereHit sp ra (integrate dt p) i)
    (hfirst : ∀ j, j < i → ¬ sphereHit sp ra (integrate dt p) j)
    (hne : (integrate dt p).position ≠ s.aPosition) :
    (collideSpheres ⟨Real.sqrt, Real.sin, Real.cos⟩ sp ra (integrate dt p)).velocity =
        ((((integrate dt p).position.sub s.aPosition).normalized
          ⟨Real.sqrt, Real.sin, Real.cos⟩).scale
            (PVRTVec3.length ⟨Real.sqrt, Real.sin, Real.cos⟩
              ⟨p.velocity.x, p.velocity.y + dt * (-0.98), p.velocity.z⟩)).scale 0.5 ∧
    (((integrate dt p).position.sub s.aPosition).normalized
        ⟨Real.sqrt, Real.sin, Real.cos⟩).length ⟨Real.sqrt, Real.sin, Real.cos⟩ = 1 ∧
    (collideSpheres ⟨Real.sqrt, Real.sin, Real.cos⟩ sp ra (integrate dt p)).velocity.length
        ⟨Real.sqrt, Real.sin, Real.cos⟩ =
      0.5 * PVRTVec3.length ⟨Real.sqrt, Real.sin, Real.cos⟩
        ⟨p.velocity.x, p.velocity.y + dt * (-0.98), p.velocity.z⟩ ∧
    ∀ w : Particle ℝ, w.position = (integrate dt p).position →
      w.velocity.length ⟨Real.sqrt, Real.sin, Real.cos⟩ =
        (integrate dt p).velocity.length ⟨Real.sqrt, Real.sin, Real.cos⟩ →
      (resolveSphere ⟨Real.sqrt, Real.sin, Real.cos⟩ s w).velocity =
        (collideSpheres ⟨Real.sqrt, Real.sin, Real.cos⟩ sp ra (integrate dt p)).velocity := by
  have hunit := length_normalized _ (lenSqr_sub_pos _ _ hne)
  rw [collideSpheres_first_hit _ sp ra (integrate dt p) i s hs hhit hfirst]
  refine ⟨rfl, hunit, ?_, ?_⟩
  · simp only [resolveSphere]
    have hv : 0 ≤ (integrate dt p).velocity.length ⟨Real.sqrt, Real.sin, Real.cos⟩ :=
      Real.sqrt_nonneg _
    rw [length_scale _ _ (by norm_num), length_scale _ _ hv, hunit, mul_one]
    rfl
  · intro w hw hlen
    simp only [resolveSphere, hw, hlen]

theorem bounce_velocity_witness :
    (demoSpheres ℝ)[1]? = some ⟨⟨0, 0, 0⟩, 2⟩ ∧
    sphereHit (demoSpheres ℝ) [1, 4, 9] (integrate (1 / 10) (fallingParticle ℝ)) 1 ∧
    (collideSpheres ⟨Real.sqrt, Real.sin, Real.cos⟩ (demoSpheres ℝ) [1, 4, 9]
        (integrate (1 / 10) (fallingParticle ℝ))).velocity.length
        ⟨Real.sqrt, Real.sin, Real.cos⟩ =
      0.5 * PVRTVec3.length ⟨Real.sqrt, Real.sin, Real.cos⟩
        ⟨(fallingParticle ℝ).velocity.x, (fallingParticle ℝ).velocity.y + 1 / 10 * (-0.98),
          (fallingParticle ℝ).velocity.z⟩ := by
  have hs : (demoSpheres ℝ)[1]? = some ⟨⟨0, 0, 0⟩, 2⟩ := by simp [demoSpheres]
  have hhit : sphereHit (demoSpheres ℝ) [1, 4, 9] (integrate (1 / 10) (fallingParticle ℝ)) 1 := by
    norm_num [sphereHit, demoSpheres, integrate, fallingParticle,
      PVRTVec3.sub, PVRTVec3.add, PVRTVec3.scale, PVRTVec3.lenSqr]
  refine ⟨hs, hhit, ?_⟩
  exact (bounce_velocity (demoSpheres ℝ) [1, 4, 9] (fallingParticle ℝ) (1 / 10) 1
    ⟨⟨0, 0, 0⟩, 2⟩ hs hhit
    (fun j hj => by
      interval_cases j
      norm_num [sphereHit, demoSpheres, integrate, fallingParticle,
        PVRTVec3.sub, PVRTVec3.add, PVRTVec3.scale, PVRTVec3.lenSqr])
    (by norm_num [integrate, fallingParticle, PVRTVec3.add, PVRTVec3.scale])).2.2.1

/-! ## C5: first hit wins -/

/-- C5: for a particle that is not respawned, with `p1` its state after
integration: if sphere `i` is the first of the stored list with
`|p1 - centre_i|² < squaredRadii[i]`, the sphere phase is exactly the
resolution against sphere `i` (whatever the other spheres contain), and the
particle after `Update` is that resolution followed by the ground-plane
test; if no sphere passes the test, the sphere phase leaves the particle,
hence its position and velocity, unchanged. -/
theorem first_hit_wins {K : Type} [LinearOrderedField K] (ops : FloatLib K)
    (sys : ParticleSystemCPU K) (dt : K) (g : RandState K) (n : Nat) (p : Particle K)
    (hp : sys.m_aParticles[n]? = some p) (halive : ¬ p.lifespan - dt < 0) :
    (∀ (i : Nat) (s : Sphere K), sys.m_aSpheres[i]? = some s →
        sphereHit sys.m_aSpheres sys.m_aSquaredRadii
          (integrate dt { p with lifespan := p.lifespan - dt }) i →
        (∀ j, j < i → ¬ sphereHit sys.m_aSpheres sys.m_aSquaredRadii
          (integrate dt { p with lifespan := p.lifespan - dt }) j) →
        collideSpheres ops sys.m_aSpheres sys.m_aSquaredRadii
            (integrate dt { p with lifespan := p.lifespan - dt }) =
          resolveSphere ops s (integrate dt { p with lifespan := p.lifespan - dt }) ∧
        (sys.Update ops dt g).2.1.m_aParticles[n]? =
          some (collideGround
            (resolveSphere ops s (integrate dt { p with lifespan := p.lifespan - dt })))) ∧
    ((∀ j, j < sys.m_aSpheres.length → ¬ sphereHit sys.m_aSpheres sys.m_aSquaredRadii
          (integrate dt { p with lifespan := p.lifespan - dt }) j) →
        collideSpheres ops sys.m_aSpheres sys.m_aSquaredRadii
            (integrate dt { p with lifespan := p.lifespan - dt }) =
          integrate dt { p with lifespan := p.lifespan - dt } ∧
        (sys.Update ops dt g).2.1.m_aParticles[n]? =
          some (collideGround (integrate dt { p with lifespan := p.lifespan - dt }))) := by
  have hU := Update_get ops sys dt g n p hp
  rw [updateParticle_alive ops _ _ _ dt p _ halive] at hU
  constructor
  · intro i s hs hhit hmiss
    have hc := collideSpheres_first_hit ops sys.m_aSpheres sys.m_aSquaredRadii _ i s hs
      hhit hmiss
    exact ⟨hc, by rw [hU, hc]⟩
  · intro hnone
    have hc := collideSpheres_no_hit ops sys.m_aSpheres sys.m_aSquaredRadii _ hnone
    exact ⟨hc, by rw [hU, hc]⟩

theorem first_hit_wins_witness :
    (sphereField ℝ).m_aParticles[1]? = some (fallingParticle ℝ) ∧
    ¬ (fallingParticle ℝ).lifespan - 1 / 10 < 0 ∧
    (sphereField ℝ).m_aSpheres[1]? = some ⟨⟨0, 0, 0⟩, 2⟩ ∧
    sphereHit (sphereField ℝ).m_aSpheres (sphereField ℝ).m_aSquaredRadii
      (integrate (1 / 10)
        { fallingParticle ℝ with lifespan := (fallingParticle ℝ).lifespan - 1 / 10 }) 2 ∧
    ((sphereField ℝ).Update ⟨Real.sqrt, Real.sin, Real.cos⟩ (1 / 10)
        (halfRand ℝ)).2.1.m_aParticles[1]? =
      some (collideGround (resolveSphere ⟨Real.sqrt, Real.sin, Real.cos⟩ ⟨⟨0, 0, 0⟩, 2⟩
        (integrate (1 / 10)
          { fallingParticle ℝ with lifespan := (fallingParticle ℝ).lifespan - 1 / 10 }))) := by
  have hp : (sphereField ℝ).m_aParticles[1]? = some (fallingParticle ℝ) := by
    simp [sphereField]
  have hal : ¬ (fallingParticle ℝ).lifespan - 1 / 10 < 0 := by norm_num [fallingParticle]
  have hs : (sphereField ℝ).m_aSpheres[1]? = some ⟨⟨0, 0, 0⟩, 2⟩ := by
    simp [sphereField, demoSpheres]
  refine ⟨hp, hal, hs, ?_, ?_⟩
  · norm_num [sphereHit, sphereField, demoSpheres, integrate, fallingParticle,
      PVRTVec3.sub, PVRTVec3.add, PVRTVec3.scale, PVRTVec3.lenSqr]
  · refine ((first_hit_wins ⟨Real.sqrt, Real.sin, Real.cos⟩ (sphereField ℝ) (1 / 10)
      (halfRand ℝ) 1 (fallingParticle ℝ) hp hal).1 1 ⟨⟨0, 0, 0⟩, 2⟩ hs ?_ ?_).2
    · norm_num [sphereHit, sphereField, demoSpheres, integrate, fallingParticle,
        PVRTVec3.sub, PVRTVec3.add, PVRTVec3.scale, PVRTVec3.lenSqr]
    · intro j hj
      interval_cases j
      norm_num [sphereHit, sphereField, demoSpheres, integrate, fallingParticle,
        PVRTVec3.sub, PVRTVec3.add, PVRTVec3.scale, PVRTVec3.lenSqr]

/-! ## C7: integration -/

/-- C7: a particle with `lifespan - dt ≥ 0` whose integrated position passes
no sphere test and has `y ≥ radius` is, after `Update(dt)`, at
`position + velocity * dt` (the velocity before the gravity update), with
velocity `(vx, vy + dt * -0.98, vz)`, lifespan `lifespan - dt`, and the same
radius, colour and mesh reference. -/
theorem integration_step {K : Type} [LinearOrderedField K] (ops : FloatLib K)
    (sys : ParticleSystemCPU K) (dt : K) (g : RandState K) (n : Nat) (p : Particle K)
    (hp : sys.m_aParticles[n]? = some p) (halive : 0 ≤ p.lifespan - dt)
    (hnohit : ∀ j, j < sys.m_aSpheres.length →
      ¬ sphereHit sys.m_aSpheres sys.m_aSquaredRadii
        (integrate dt { p with lifespan := p.lifespan - dt }) j)
    (hy : p.radius ≤ p.position.y + p.velocity.y * dt) :
    (sys.Update ops dt g).2.1.m_aParticles[n]? = some
      { position := ⟨p.position.x + p.velocity.x * dt, p.position.y + p.velocity.y * dt,
          p.position.z + p.velocity.z * dt⟩
        velocity := ⟨p.velocity.x, p.velocity.y + dt * (-0.98), p.velocity.z⟩
        radius := p.radius
        color := p.color
        lifespan := p.lifespan - dt
        pMesh := p.pMesh } := by
  rw [Update_get ops sys dt g n p hp,
    updateParticle_alive ops _ _ _ dt p _ (not_lt.mpr halive),
    collideSpheres_no_hit ops _ _ _ hnohit]
  have hground : ¬ (integrate dt { p with lifespan := p.lifespan - dt }).position.y <
      (integrate dt { p with lifespan := p.lifespan - dt }).radius := by
    simp only [integrate, PVRTVec3.add, PVRTVec3.scale, not_lt]
    linarith
  simp only [collideGround, hground, if_false]
  simp only [integrate, PVRTVec3.add, PVRTVec3.scale, add_comm]

theorem integration_step_witness :
    (risingField ℝ).m_aParticles[0]? = some (risingParticle ℝ) ∧
    (0 : ℝ) ≤ (risingParticle ℝ).lifespan - 1 / 10 ∧
    (risingParticle ℝ).radius ≤
      (risingParticle ℝ).position.y + (risingParticle ℝ).velocity.y * (1 / 10) ∧
    ((risingField ℝ).Update ⟨Real.sqrt, Real.sin, Real.cos⟩ (1 / 10)
        (halfRand ℝ)).2.1.m_aParticles[0]? = some
      { position := ⟨(risingParticle ℝ).position.x + (risingParticle ℝ).velocity.x * (1 / 10),
          (risingParticle ℝ).position.y + (risingParticle ℝ).velocity.y * (1 / 10),
          (risingParticle ℝ).position.z + (risingParticle ℝ).velocity.z * (1 / 10)⟩
        velocity := ⟨(risingParticle ℝ).velocity.x,
          (risingParticle ℝ).velocity.y + 1 / 10 * (-0.98), (risingParticle ℝ).velocity.z⟩
        radius := (risingParticle ℝ).radius
        color := (risingParticle ℝ).color
        lifespan := (risingParticle ℝ).lifespan - 1 / 10
        pMesh := (risingParticle ℝ).pMesh } := by
  have hp : (risingField ℝ).m_aParticles[0]? = some (risingParticle ℝ) := by
    simp [risingField]
  have hal : (0 : ℝ) ≤ (risingParticle ℝ).lifespan - 1 / 10 := by
    norm_num [risingParticle]
  have hy : (risingParticle ℝ).radius ≤
      (risingParticle ℝ).position.y + (risingParticle ℝ).velocity.y * (1 / 10) := by
    norm_num [risingParticle]
  refine ⟨hp, hal, hy, ?_⟩
  exact integration_step _ (risingField ℝ) (1 / 10) (halfRand ℝ) 0 (risingParticle ℝ) hp hal
    (fun j hj => by
      have hj3 : j < 3 := by simpa [risingField, demoSpheres] using hj
      interval_cases j <;>
        norm_num [sphereHit, risingField, demoSpheres, integrate, risingParticle,
          PVRTVec3.sub, PVRTVec3.add, PVRTVec3.scale, PVRTVec3.lenSqr])
    hy

/-! ## C8: ground plane -/

/-- C8, at the failing input: in `centreField` the live particle sits on the
centre of the only sphere (radius 2, cached square 4).  In `Update(0)` it is
not respawned, the sphere passes the distance test (`0 < 4`), and the length
that `normalized()` divides by in line 90 is zero: the sphere phase is not
defined, the position it writes is not a number, and the comparison of
line 100 is then false, so no clamp is applied. -/
theorem ground_clamp_meets_undefined_resolution :
    (centreField ℝ).m_aParticles[0]? = some (centreParticle ℝ) ∧
    ¬ (centreParticle ℝ).lifespan - 0 < 0 ∧
    (centreField ℝ).m_aSpheres[0]? = some ⟨⟨0, 10, 0⟩, 2⟩ ∧
    sphereHit (centreField ℝ).m_aSpheres (centreField ℝ).m_aSquaredRadii
      (integrate 0 { centreParticle ℝ with lifespan := (centreParticle ℝ).lifespan - 0 }) 0 ∧
    ((integrate 0
        { centreParticle ℝ with lifespan := (centreParticle ℝ).lifespan - 0 }).position.sub
      ⟨0, 10, 0⟩).length ⟨Real.sqrt, Real.sin, Real.cos⟩ = 0 ∧
    ¬ SpherePhaseDefined ⟨Real.sqrt, Real.sin, Real.cos⟩ (centreField ℝ).m_aSpheres
      (centreField ℝ).m_aSquaredRadii
      (integrate 0 { centreParticle ℝ with lifespan := (centreParticle ℝ).lifespan - 0 }) := by
  have hs : (centreField ℝ).m_aSpheres[0]? = some ⟨⟨0, 10, 0⟩, 2⟩ := by simp [centreField]
  have hhit : sphereHit (centreField ℝ).m_aSpheres (centreField ℝ).m_aSquaredRadii
      (integrate 0 { centreParticle ℝ with lifespan := (centreParticle ℝ).lifespan - 0 })
      0 := by
    norm_num [sphereHit, centreField, integrate, centreParticle,
      PVRTVec3.sub, PVRTVec3.add, PVRTVec3.scale, PVRTVec3.lenSqr]
  have hlen : ((integrate 0
      { centreParticle ℝ with lifespan := (centreParticle ℝ).lifespan - 0 }).position.sub
      ⟨0, 10, 0⟩).length ⟨Real.sqrt, Real.sin, Real.cos⟩ = 0 := by
    norm_num [PVRTVec3.length, integrate, centreParticle,
      PVRTVec3.sub, PVRTVec3.add, PVRTVec3.scale, PVRTVec3.lenSqr]
  refine ⟨by simp [centreField], by norm_num [centreParticle], hs, hhit, hlen, ?_⟩
  intro hdef
  exact hdef 0 ⟨⟨0, 10, 0⟩, 2⟩ hs hhit (fun j hj => absurd hj (Nat.not_lt_zero j)) hlen

/-- The ground-plane test where the sphere phase is defined.  For a particle
that is not respawned and whose resolving sphere, if there is one, is at a
non-zero distance, with `m` its state after integration and the sphere
phase: if `m.position.y < radius` then after `Update` its position is
`(m.x, radius, m.z)` and its velocity `(0.4 * vx, -0.3 * vy, 0.4 * vz)`;
otherwise position and velocity are those of `m`.  Either way
`position.y ≥ radius` afterwards. -/
theorem ground_plane_clamp {K : Type} [LinearOrderedField K] (ops : FloatLib K)
    (sys : ParticleSystemCPU K) (dt : K) (g : RandState K) (n : Nat) (p : Particle K)
    (hp : sys.m_aParticles[n]? = some p) (halive : ¬ p.lifespan - dt < 0)
    (hdef : SpherePhaseDefined ops sys.m_aSpheres sys.m_aSquaredRadii
      (integrate dt { p with lifespan := p.lifespan - dt })) :
    ∃ q m, (sys.Update ops dt g).2.1.m_aParticles[n]? = some q ∧
      m = collideSpheres ops sys.m_aSpheres sys.m_aSquaredRadii
        (integrate dt { p with lifespan := p.lifespan - dt }) ∧
      (m.position.y < p.radius →
        q.position = ⟨m.position.x, p.radius, m.position.z⟩ ∧
        q.velocity = ⟨0.4 * m.velocity.x, -0.3 * m.velocity.y, 0.4 * m.velocity.z⟩) ∧
      (¬ m.position.y < p.radius → q.position = m.position ∧ q.velocity = m.velocity) ∧
      q.radius = p.radius ∧ q.radius ≤ q.position.y := by
  have _ := hdef
  refine ⟨_, _, Update_get ops sys dt g n p hp, rfl, ?_⟩
  rw [updateParticle_alive ops _ _ _ dt p _ halive]
  have hrad : (collideSpheres ops sys.m_aSpheres sys.m_aSquaredRadii
      (integrate dt { p with lifespan := p.lifespan - dt })).radius = p.radius := by
    rw [(collideSpheres_frame ops _ _ _).1]
    rfl
  generalize collideSpheres ops sys.m_aSpheres sys.m_aSquaredRadii
    (integrate dt { p with lifespan := p.lifespan - dt }) = m at hrad
  obtain ⟨hlow, hhigh⟩ := collideGround_cases m
  rw [hrad] at hlow hhigh
  exact ⟨hlow, hhigh, by rw [(collideGround_frame m).1, hrad], collideGround_floor m⟩

theorem ground_plane_clamp_witness :
    (sphereField ℝ).m_aParticles[1]? = some (fallingParticle ℝ) ∧
    ¬ (fallingParticle ℝ).lifespan - 1 / 10 < 0 ∧
    SpherePhaseDefined ⟨Real.sqrt, Real.sin, Real.cos⟩ (sphereField ℝ).m_aSpheres
      (sphereField ℝ).m_aSquaredRadii
      (integrate (1 / 10)
        { fallingParticle ℝ with lifespan := (fallingParticle ℝ).lifespan - 1 / 10 }) ∧
    ∃ q m, ((sphereField ℝ).Update ⟨Real.sqrt, Real.sin, Real.cos⟩ (1 / 10)
          (halfRand ℝ)).2.1.m_aParticles[1]? = some q ∧
      m = collideSpheres ⟨Real.sqrt, Real.sin, Real.cos⟩ (sphereField ℝ).m_aSpheres
        (sphereField ℝ).m_aSquaredRadii (integrate (1 / 10)
          { fallingParticle ℝ with lifespan := (fallingParticle ℝ).lifespan - 1 / 10 }) ∧
      (m.position.y < (fallingParticle ℝ).radius →
        q.position = ⟨m.position.x, (fallingParticle ℝ).radius, m.position.z⟩ ∧
        q.velocity = ⟨0.4 * m.velocity.x, -0.3 * m.velocity.y, 0.4 * m.velocity.z⟩) ∧
      (¬ m.position.y < (fallingParticle ℝ).radius →
        q.position = m.position ∧ q.velocity = m.velocity) ∧
      q.radius = (fallingParticle ℝ).radius ∧ q.radius ≤ q.position.y :=
  ⟨by simp [sphereField], by norm_num [fallingParticle], sphereField_defined,
    ground_plane_clamp _ (sphereField ℝ) (1 / 10) (halfRand ℝ) 1 (fallingParticle ℝ)
      (by simp [sphereField]) (by norm_num [fallingParticle]) sphereField_defined⟩

/-! ## C9 and C10: SetNumberOfParticles -/

section Resize

variable {K : Type} [LinearOrderedField K]

theorem initLoop_length (mesh : MeshRef) (l : List (Particle K)) (g : RandState K) :
    (initLoop mesh l g).1.length = l.length := by
  induction l generalizing g with
  | nil => rfl
  | cons p ps ih => simp [initLoop, ih]

/-- The loop draws once per particle. -/
theorem initLoop_rand (mesh : MeshRef) (l : List (Particle K)) (g : RandState K) :
    (initLoop mesh l g).2 = { g with cursor := g.cursor + l.length } := by
  induction l generalizing g with
  | nil => rfl
  | cons p ps ih =>
    simp only [initLoop, ih, randf, List.length_cons]
    congr 1
    omega

/-- Slot `i` gets the `i`-th draw times 20 as lifespan, radius `0.5` and the
mesh; its other fields are left as they were. -/
theorem initLoop_get (mesh : MeshRef) (l : List (Particle K)) (g : RandState K) (i : Nat)
    (p : Particle K) (h : l[i]? = some p) :
    (initLoop mesh l g).1[i]? =
      some { p with lifespan := g.draws (g.cursor + i) * 20, radius := 0.5, pMesh := mesh } := by
  induction l generalizing g i with
  | nil => simp at h
  | cons a as ih =>
    cases i with
    | zero =>
      simp at h
      subst h
      simp [initLoop, randf]
    | succ j =>
      simp at h
      have := ih (randf g).2 j h
      simp only [randf] at this
      simp only [initLoop, randf, List.getElem?_cons_succ, this]
      rw [show g.cursor + 1 + j = g.cursor + (j + 1) by omega]

theorem SetNumberOfParticles_same (blank : Particle K) (sys : ParticleSystemCPU K) (n : Nat)
    (g : RandState K) (h : sys.m_aParticles.length = n) :
    sys.SetNumberOfParticles blank n g = (true, sys, g) := by
  simp [ParticleSystemCPU.SetNumberOfParticles, h]

theorem SetNumberOfParticles_length (blank : Particle K) (sys : ParticleSystemCPU K) (n : Nat)
    (g : RandState K) : (sys.SetNumberOfParticles blank n g).2.1.m_aParticles.length = n := by
  unfold ParticleSystemCPU.SetNumberOfParticles
  split
  · simp [initLoop_length, clearAndResize]
  · rename_i h
    simpa using h

theorem SetNumberOfParticles_get (blank : Particle K) (sys : ParticleSystemCPU K) (n : Nat)
    (g : RandState K) (hn : sys.m_aParticles.length ≠ n) (i : Nat) (hi : i < n) :
    (sys.SetNumberOfParticles blank n g).2.1.m_aParticles[i]? =
      some { blank with
        lifespan := g.draws (g.cursor + i) * 20, radius := 0.5, pMesh := sys.m_ParticleMesh } := by
  simp only [ParticleSystemCPU.SetNumberOfParticles, hn, ne_eq, not_false_eq_true, if_true]
  exact initLoop_get _ _ g i blank (by simp [clearAndResize, hi])

end Resize

/-- C9: calling `SetNumberOfParticles(n)` a second time right after the first
returns true and leaves the system and the generator exactly as the first
call left them; more generally, whenever `n` is the current particle count
the call returns true and changes neither the system nor the generator. -/
theorem resize_idempotent {K : Type} [LinearOrderedField K] (blank blank2 : Particle K)
    (sys : ParticleSystemCPU K) (n : Nat) (g : RandState K) :
    (sys.SetNumberOfParticles blank n g).2.1.SetNumberOfParticles blank2 n
        (sys.SetNumberOfParticles blank n g).2.2 =
      (true, (sys.SetNumberOfParticles blank n g).2.1,
        (sys.SetNumberOfParticles blank n g).2.2) ∧
    (sys.m_aParticles.length = n → sys.SetNumberOfParticles blank n g = (true, sys, g)) :=
  ⟨SetNumberOfParticles_same blank2 _ n _ (SetNumberOfParticles_length blank sys n g),
    SetNumberOfParticles_same blank sys n g⟩

theorem resize_idempotent_witness :
    (groundField ℚ).m_aParticles.length = 2 ∧
    (groundField ℚ).SetNumberOfParticles (blankParticle ℚ) 2 (halfRand ℚ) =
      (true, groundField ℚ, halfRand ℚ) :=
  ⟨rfl, (resize_idempotent (blankParticle ℚ) (blankParticle ℚ) (groundField ℚ) 2
    (halfRand ℚ)).2 rfl⟩

/-- C10: when `n` differs from the current particle count and the draws lie
in `[0, 1)`, `SetNumberOfParticles(n)` returns true and leaves exactly `n`
particles; particle `i` has lifespan `20 * (draw i)` in `[0, 20)`, radius
`0.5` and the stored mesh reference (the one last given to
`SetParticleMesh`), its remaining fields being those of a fresh array slot;
the new array does not depend on the previous particles. -/
theorem resize_reinitialises {K : Type} [LinearOrderedField K] (blank : Particle K)
    (sys : ParticleSystemCPU K) (n : Nat) (g : RandState K)
    (hn : sys.m_aParticles.length ≠ n) (hg : g.InUnit) :
    (sys.SetNumberOfParticles blank n g).1 = true ∧
    (sys.SetNumberOfParticles blank n g).2.1.m_aParticles.length = n ∧
    (∀ i, i < n → ∃ q, (sys.SetNumberOfParticles blank n g).2.1.m_aParticles[i]? = some q ∧
      q = { blank with lifespan := 20 * g.draws (g.cursor + i), radius := 0.5,
                       pMesh := sys.m_ParticleMesh } ∧
      0 ≤ q.lifespan ∧ q.lifespan < 20) ∧
    (∀ (mesh : MeshRef) (i : Nat), i < n → ∃ q,
      ((sys.SetParticleMesh mesh).2.SetNumberOfParticles blank n g).2.1.m_aParticles[i]? =
        some q ∧ q.pMesh = mesh) ∧
    (∀ old : List (Particle K), old.length ≠ n →
      (({ sys with m_aParticles := old }).SetNumberOfParticles blank n g).2.1.m_aParticles =
        (sys.SetNumberOfParticles blank n g).2.1.m_aParticles) := by
  refine ⟨?_, SetNumberOfParticles_length blank sys n g, ?_, ?_, ?_⟩
  · simp [ParticleSystemCPU.SetNumberOfParticles, hn]
  · intro i hi
    obtain ⟨h0, h1⟩ := hg (g.cursor + i)
    refine ⟨_, SetNumberOfParticles_get blank sys n g hn i hi, ?_, ?_, ?_⟩
    · rw [mul_comm]
    · show 0 ≤ g.draws (g.cursor + i) * 20
      linarith
    · show g.draws (g.cursor + i) * 20 < 20
      linarith
  · intro mesh i hi
    exact ⟨_, SetNumberOfParticles_get blank (sys.SetParticleMesh mesh).2 n g hn i hi, rfl⟩
  · intro old hold
    simp [ParticleSystemCPU.SetNumberOfParticles, hn, hold]

theorem resize_reinitialises_witness :
    (groundField ℚ).m_aParticles.length ≠ 3 ∧ (halfRand ℚ).InUnit ∧
    ((groundField ℚ).SetNumberOfParticles (blankParticle ℚ) 3 (halfRand ℚ)).2.1.m_aParticles.length
      = 3 :=
  ⟨by decide, fun n => by norm_num [halfRand],
    (resize_reinitialises (blankParticle ℚ) (groundField ℚ) 3 (halfRand ℚ) (by decide)
      (fun n => by norm_num [halfRand])).2.1⟩

/-! ## C11: the squared-radius cache -/

section Cache

variable {K : Type} [LinearOrderedField K]

theorem appendSpheres_eq (l : List (Sphere K)) (acc : List (Sphere K) × List K) :
    appendSpheres l acc =
      (acc.1 ++ l, acc.2 ++ l.map (fun s => s.fRadius * s.fRadius)) := by
  induction l generalizing acc with
  | nil => simp [appendSpheres]
  | cons s rest ih => simp [appendSpheres, ih]

theorem SetCollisionSpheres_eq (sys : ParticleSystemCPU K) (l : List (Sphere K)) :
    sys.SetCollisionSpheres l =
      (true, { sys with
        m_aSpheres := l
        m_aSquaredRadii := l.map (fun s => s.fRadius * s.fRadius) }) := by
  simp [ParticleSystemCPU.SetCollisionSpheres, appendSpheres_eq]

/-- A call other than `setCollisionSpheres` leaves both lists alone. -/
theorem call_spheres (ops : FloatLib K) (c : Call K)
    (st : ParticleSystemCPU K × RandState K)
    (hc : ∀ l, c ≠ Call.setCollisionSpheres l) :
    (ParticleSystemCPU.call ops c st).1.m_aSpheres = st.1.m_aSpheres ∧
    (ParticleSystemCPU.call ops c st).1.m_aSquaredRadii = st.1.m_aSquaredRadii := by
  cases c with
  | setEmitter e => exact ⟨rfl, rfl⟩
  | setParticleMesh m => exact ⟨rfl, rfl⟩
  | setCollisionSpheres l => exact absurd rfl (hc l)
  | setNumberOfParticles n blank =>
    simp only [ParticleSystemCPU.call, ParticleSystemCPU.SetNumberOfParticles]
    split <;> exact ⟨rfl, rfl⟩
  | update dt => exact ⟨rfl, rfl⟩

/-- Every call keeps the cache equal to the squared radii of the list. -/
theorem call_lockstep (ops : FloatLib K) (c : Call K)
    (st : ParticleSystemCPU K × RandState K)
    (h : st.1.m_aSquaredRadii = st.1.m_aSpheres.map (fun s => s.fRadius * s.fRadius)) :
    (ParticleSystemCPU.call ops c st).1.m_aSquaredRadii =
      (ParticleSystemCPU.call ops c st).1.m_aSpheres.map (fun s => s.fRadius * s.fRadius) := by
  cases c with
  | setCollisionSpheres l =>
    simp [ParticleSystemCPU.call, SetCollisionSpheres_eq]
  | setEmitter e =>
    obtain ⟨h1, h2⟩ := call_spheres ops (Call.setEmitter e) st (fun l hl => by cases hl)
    rw [h1, h2, h]
  | setParticleMesh m =>
    obtain ⟨h1, h2⟩ := call_spheres ops (Call.setParticleMesh m) st (fun l hl => by cases hl)
    rw [h1, h2, h]
  | setNumberOfParticles n blank =>
    obtain ⟨h1, h2⟩ := call_spheres ops (Call.setNumberOfParticles n blank) st
      (fun l hl => by cases hl)
    rw [h1, h2, h]
  | update dt =>
    obtain ⟨h1, h2⟩ := call_spheres ops (Call.update dt) st (fun l hl => by cases hl)
    rw [h1, h2, h]

theorem run_lockstep (ops : FloatLib K) (cs : List (Call K))
    (st : ParticleSystemCPU K × RandState K)
    (h : st.1.m_aSquaredRadii = st.1.m_aSpheres.map (fun s => s.fRadius * s.fRadius)) :
    (ParticleSystemCPU.run ops cs st).1.m_aSquaredRadii =
      (ParticleSystemCPU.run ops cs st).1.m_aSpheres.map (fun s => s.fRadius * s.fRadius) := by
  induction cs generalizing st with
  | nil => exact h
  | cons c rest ih => exact ih _ (call_lockstep ops c st h)

/-- A sequence of calls without `setCollisionSpheres` leaves both lists alone. -/
theorem run_spheres (ops : FloatLib K) (cs : List (Call K))
    (st : ParticleSystemCPU K × RandState K)
    (hcs : ∀ c ∈ cs, ∀ l, c ≠ Call.setCollisionSpheres l) :
    (ParticleSystemCPU.run ops cs st).1.m_aSpheres = st.1.m_aSpheres ∧
    (ParticleSystemCPU.run ops cs st).1.m_aSquaredRadii = st.1.m_aSquaredRadii := by
  induction cs generalizing st with
  | nil => exact ⟨rfl, rfl⟩
  | cons c rest ih =>
    obtain ⟨h1, h2⟩ := call_spheres ops c st (hcs c (List.mem_cons_self c rest))
    obtain ⟨h3, h4⟩ := ih (ParticleSystemCPU.call ops c st)
      (fun d hd => hcs d (List.mem_cons_of_mem c hd))
    exact ⟨by rw [ParticleSystemCPU.run, h3, h1], by rw [ParticleSystemCPU.run, h4, h2]⟩

end Cache

/-- C11: `SetCollisionSpheres` returns true and afterwards the stored sphere
list is the input list and the cache is the list of the squared radii, in the
same order (so of the same length, entry `i` being `radius_i * radius_i`),
whatever was stored before; every call other than `SetCollisionSpheres`
leaves both lists unchanged; and in every state reached from the freshly
constructed system by any sequence of calls the cache is the list of the
squared radii of the stored spheres. -/
theorem cache_lockstep {K : Type} [LinearOrderedField K] (ops : FloatLib K) :
    (∀ (sys : ParticleSystemCPU K) (l : List (Sphere K)),
      (sys.SetCollisionSpheres l).1 = true ∧
      (sys.SetCollisionSpheres l).2.m_aSpheres = l ∧
      (sys.SetCollisionSpheres l).2.m_aSquaredRadii.length = l.length ∧
      (∀ (i : Nat) (s : Sphere K), l[i]? = some s →
        (sys.SetCollisionSpheres l).2.m_aSquaredRadii[i]? = some (s.fRadius * s.fRadius))) ∧
    (∀ (st : ParticleSystemCPU K × RandState K) (e : Emitter K) (m : MeshRef) (n : Nat)
        (blank : Particle K) (dt : K) (c : Call K),
      c ∈ [Call.setEmitter e, Call.setParticleMesh m, Call.setNumberOfParticles n blank,
        Call.update dt] →
      (ParticleSystemCPU.call ops c st).1.m_aSpheres = st.1.m_aSpheres ∧
      (ParticleSystemCPU.call ops c st).1.m_aSquaredRadii = st.1.m_aSquaredRadii) ∧
    (∀ (emitter : Emitter K) (mesh : MeshRef) (g : RandState K) (cs : List (Call K)),
      (ParticleSystemCPU.run ops cs
          (ParticleSystemCPU.fresh emitter mesh, g)).1.m_aSquaredRadii =
        (ParticleSystemCPU.run ops cs
          (ParticleSystemCPU.fresh emitter mesh, g)).1.m_aSpheres.map
            (fun s => s.fRadius * s.fRadius)) := by
  refine ⟨?_, ?_, ?_⟩
  · intro sys l
    rw [SetCollisionSpheres_eq]
    refine ⟨rfl, rfl, by simp, ?_⟩
    intro i s hs
    simp [hs]
  · intro st e m n blank dt c hc
    apply call_spheres ops c st
    intro l hl
    subst hl
    simp at hc
  · intro emitter mesh g cs
    exact run_lockstep ops cs _ rfl

theorem cache_lockstep_witness :
    (demoSpheres ℝ)[2]? = some ⟨⟨0, -1, 0⟩, 3⟩ ∧
    ((groundField ℝ).SetCollisionSpheres (demoSpheres ℝ)).2.m_aSquaredRadii[2]? =
      some (3 * 3) :=
  ⟨by simp [demoSpheres],
    ((cache_lockstep ⟨Real.sqrt, Real.sin, Real.cos⟩).1 (groundField ℝ)
      (demoSpheres ℝ)).2.2.2 2 ⟨⟨0, -1, 0⟩, 3⟩ (by simp [demoSpheres])⟩

/-! ## C17: spheres of non-positive radius -/

section Radius

variable {K : Type} [LinearOrderedField K]

/-- With the cache in lockstep, the test for the sphere `s` stored at index
`i` compares the squared distance with `s.fRadius * s.fRadius`. -/
theorem sphereHit_lockstep (l : List (Sphere K)) (p : Particle K) (i : Nat) (s : Sphere K)
    (hs : l[i]? = some s) :
    sphereHit l (l.map (fun s => s.fRadius * s.fRadius)) p i ↔
      (p.position.sub s.aPosition).lenSqr < s.fRadius * s.fRadius := by
  simp [sphereHit, List.getD_eq_getElem?_getD, hs]

end Radius

/-- C17, as stated, fails for a negative radius: the sphere of radius `-2`
at the origin is accepted, its cached square is `4`, and in the next
`Update(1/10)` the falling particle, integrated to `(0.1, -1, 0.2)`, passes
the test and is resolved against it. -/
theorem negative_radius_sphere_collides :
    ((groundField ℝ).SetCollisionSpheres (negativeSpheres ℝ)).1 = true ∧
    ((groundField ℝ).SetCollisionSpheres (negativeSpheres ℝ)).2.m_aSpheres[0]? =
      some ⟨⟨0, 0, 0⟩, -2⟩ ∧
    sphereHit ((groundField ℝ).SetCollisionSpheres (negativeSpheres ℝ)).2.m_aSpheres
      ((groundField ℝ).SetCollisionSpheres (negativeSpheres ℝ)).2.m_aSquaredRadii
      (integrate (1 / 10)
        { fallingParticle ℝ with lifespan := (fallingParticle ℝ).lifespan - 1 / 10 }) 0 ∧
    (((groundField ℝ).SetCollisionSpheres (negativeSpheres ℝ)).2.Update
        ⟨Real.sqrt, Real.sin, Real.cos⟩ (1 / 10) (halfRand ℝ)).2.1.m_aParticles[1]? =
      some (collideGround (resolveSphere ⟨Real.sqrt, Real.sin, Real.cos⟩ ⟨⟨0, 0, 0⟩, -2⟩
        (integrate (1 / 10)
          { fallingParticle ℝ with lifespan := (fallingParticle ℝ).lifespan - 1 / 10 }))) := by
  have hhit : sphereHit (negativeSpheres ℝ)
      ((negativeSpheres ℝ).map (fun s => s.fRadius * s.fRadius))
      (integrate (1 / 10)
        { fallingParticle ℝ with lifespan := (fallingParticle ℝ).lifespan - 1 / 10 }) 0 := by
    norm_num [sphereHit, negativeSpheres, integrate, fallingParticle,
      PVRTVec3.sub, PVRTVec3.add, PVRTVec3.scale, PVRTVec3.lenSqr]
  rw [SetCollisionSpheres_eq]
  refine ⟨rfl, by simp [negativeSpheres], hhit, ?_⟩
  rw [Update_get _ _ (1 / 10) (halfRand ℝ) 1 (fallingParticle ℝ) (by simp [groundField]),
    updateParticle_alive _ _ _ _ _ _ _ (by norm_num [fallingParticle]),
    collideSpheres_first_hit _ _ _ _ 0 ⟨⟨0, 0, 0⟩, -2⟩ (by simp [negativeSpheres]) hhit
      (fun j hj => absurd hj (Nat.not_lt_zero j))]

/-- C17, amended: `SetCollisionSpheres` returns true and stores every input
sphere, whatever the sign of its radius.  In every state reached afterwards
by calls other than `SetCollisionSpheres`, the sphere `s` stored at index `i`
passes the distance test for a particle exactly when the squared distance is
below `s.fRadius * s.fRadius`; so a sphere of radius zero never passes it,
and a sphere of negative radius passes it as the sphere of the opposite
radius does. -/
theorem nonpositive_radius_spheres {K : Type} [LinearOrderedField K] (ops : FloatLib K)
    (sys : ParticleSystemCPU K) (l : List (Sphere K)) (i : Nat) (s : Sphere K)
    (hs : l[i]? = some s) (g : RandState K) (cs : List (Call K))
    (hcs : ∀ c ∈ cs, ∀ l2, c ≠ Call.setCollisionSpheres l2) (p : Particle K) :
    (sys.SetCollisionSpheres l).1 = true ∧
    (sys.SetCollisionSpheres l).2.m_aSpheres[i]? = some s ∧
    (ParticleSystemCPU.run ops cs ((sys.SetCollisionSpheres l).2, g)).1.m_aSpheres[i]? =
      some s ∧
    (sphereHit
        (ParticleSystemCPU.run ops cs ((sys.SetCollisionSpheres l).2, g)).1.m_aSpheres
        (ParticleSystemCPU.run ops cs ((sys.SetCollisionSpheres l).2, g)).1.m_aSquaredRadii
        p i ↔
      (p.position.sub s.aPosition).lenSqr < s.fRadius * s.fRadius) ∧
    (s.fRadius = 0 →
      ¬ sphereHit
        (ParticleSystemCPU.run ops cs ((sys.SetCollisionSpheres l).2, g)).1.m_aSpheres
        (ParticleSystemCPU.run ops cs ((sys.SetCollisionSpheres l).2, g)).1.m_aSquaredRadii
        p i) := by
  obtain ⟨h1, h2⟩ := run_spheres ops cs ((sys.SetCollisionSpheres l).2, g) hcs
  rw [h1, h2]
  rw [SetCollisionSpheres_eq]
  have hiff := sphereHit_lockstep l p i s hs
  refine ⟨rfl, hs, hs, hiff, ?_⟩
  intro hzero hhit
  have hlt := hiff.mp hhit
  rw [hzero, mul_zero] at hlt
  exact absurd (lenSqr_nonneg _) (not_le.mpr hlt)

theorem nonpositive_radius_spheres_witness :
    (negativeSpheres ℝ)[0]? = some ⟨⟨0, 0, 0⟩, -2⟩ ∧
    (sphereHit
        (ParticleSystemCPU.run ⟨Real.sqrt, Real.sin, Real.cos⟩ [Call.update (1 / 10)]
          (((groundField ℝ).SetCollisionSpheres (negativeSpheres ℝ)).2,
            halfRand ℝ)).1.m_aSpheres
        (ParticleSystemCPU.run ⟨Real.sqrt, Real.sin, Real.cos⟩ [Call.update (1 / 10)]
          (((groundField ℝ).SetCollisionSpheres (negativeSpheres ℝ)).2,
            halfRand ℝ)).1.m_aSquaredRadii
        (risingParticle ℝ) 0 ↔
      ((risingParticle ℝ).position.sub ⟨0, 0, 0⟩).lenSqr < -2 * -2) :=
  ⟨by simp [negativeSpheres],
    (nonpositive_radius_spheres ⟨Real.sqrt, Real.sin, Real.cos⟩ (groundField ℝ)
      (negativeSpheres ℝ) 0 ⟨⟨0, 0, 0⟩, -2⟩ (by simp [negativeSpheres]) (halfRand ℝ)
      [Call.update (1 / 10)] (by simp) (risingParticle ℝ)).2.2.2.1⟩

/-! ## C12: the radius stays positive -/

section RadiusInvariant

variable {K : Type} [LinearOrderedField K]

theorem RadiusOk_pos (p : Particle K) (h : p.RadiusOk) : 0 < p.radius := by
  rcases h with h | ⟨h, _⟩
  · rw [h]
    norm_num
  · exact lt_of_lt_of_le (by norm_num) h

theorem EmitParticle_radius (ops : FloatLib K) (p : Particle K) (em : Emitter K) (seed : K)
    (g : RandState K) :
    (EmitParticle ops p em seed g).1.radius = 0.3 + g.draws (g.cursor + 3) * 0.6 := rfl

theorem EmitParticle_radius_range (ops : FloatLib K) (p : Particle K) (em : Emitter K)
    (seed : K) (g : RandState K) (hg : g.InUnit) :
    0.3 ≤ (EmitParticle ops p em seed g).1.radius ∧
      (EmitParticle ops p em seed g).1.radius < 0.9 := by
  rw [EmitParticle_radius]
  obtain ⟨h0, h1⟩ := hg (g.cursor + 3)
  constructor
  · nlinarith
  · have h : g.draws (g.cursor + 3) * 0.6 < 1 * 0.6 :=
      mul_lt_mul_of_pos_right h1 (by norm_num)
    norm_num at h ⊢
    linarith

theorem updateParticle_radius_alive (ops : FloatLib K) (em : Emitter K)
    (sp : List (Sphere K)) (ra : List K) (dt : K) (p : Particle K) (g : RandState K)
    (h : ¬ p.lifespan - dt < 0) :
    (updateParticle ops em sp ra dt p g).1.radius = p.radius ∧
    (updateParticle ops em sp ra dt p g).1.color = p.color := by
  rw [updateParticle_alive ops em sp ra dt p g h]
  simp [(collideGround_frame _).1, (collideGround_frame _).2.1,
    (collideSpheres_frame ops sp ra _).1, (collideSpheres_frame ops sp ra _).2.1, integrate]

theorem updateParticle_pMesh (ops : FloatLib K) (em : Emitter K)
    (sp : List (Sphere K)) (ra : List K) (dt : K) (p : Particle K) (g : RandState K) :
    (updateParticle ops em sp ra dt p g).1.pMesh = p.pMesh := by
  by_cases h : p.lifespan - dt < 0
  · rw [updateParticle_respawn ops em sp ra dt p g h]
    rfl
  · rw [updateParticle_alive ops em sp ra dt p g h]
    simp [(collideGround_frame _).2.2.2, (collideSpheres_frame ops sp ra _).2.2.2, integrate]

theorem updateParticle_RadiusOk (ops : FloatLib K) (em : Emitter K)
    (sp : List (Sphere K)) (ra : List K) (dt : K) (p : Particle K) (g : RandState K)
    (hg : g.InUnit) (hp : p.RadiusOk) : (updateParticle ops em sp ra dt p g).1.RadiusOk := by
  by_cases h : p.lifespan - dt < 0
  · rw [updateParticle_respawn ops em sp ra dt p g h]
    exact Or.inr (EmitParticle_radius_range ops { p with lifespan := p.lifespan - dt } em
      (p.lifespan - dt) g hg)
  · unfold Particle.RadiusOk
    rw [(updateParticle_radius_alive ops em sp ra dt p g h).1]
    exact hp

theorem updateLoop_RadiusOk (ops : FloatLib K) (em : Emitter K)
    (sp : List (Sphere K)) (ra : List K) (dt : K) (l : List (Particle K)) (g : RandState K)
    (hg : g.InUnit) (hl : ∀ p ∈ l, p.RadiusOk) :
    ∀ q ∈ (updateLoop ops em sp ra dt l g).1, q.RadiusOk := by
  induction l generalizing g with
  | nil => simp [updateLoop]
  | cons a as ih =>
    intro q hq
    simp only [updateLoop, List.mem_cons] at hq
    rcases hq with hq | hq
    · rw [hq]
      exact updateParticle_RadiusOk ops em sp ra dt a g hg (hl a (List.mem_cons_self a as))
    · refine ih _ ?_ (fun p hp => hl p (List.mem_cons_of_mem a hp)) q hq
      intro n
      rw [updateParticle_draws]
      exact hg n

theorem initLoop_radius (mesh : MeshRef) (l : List (Particle K)) (g : RandState K) :
    ∀ q ∈ (initLoop mesh l g).1, q.radius = 0.5 := by
  induction l generalizing g with
  | nil => simp [initLoop]
  | cons a as ih =>
    intro q hq
    simp only [initLoop, List.mem_cons] at hq
    rcases hq with hq | hq
    · rw [hq]
    · exact ih _ q hq

/-- No call rewrites the stream of the generator. -/
theorem call_draws (ops : FloatLib K) (c : Call K) (st : ParticleSystemCPU K × RandState K) :
    (ParticleSystemCPU.call ops c st).2.draws = st.2.draws := by
  cases c with
  | setEmitter e => rfl
  | setParticleMesh m => rfl
  | setCollisionSpheres l => rfl
  | setNumberOfParticles n blank =>
    simp only [ParticleSystemCPU.call, ParticleSystemCPU.SetNumberOfParticles]
    split
    · simp [initLoop_rand]
    · rfl
  | update dt => exact updateLoop_draws _ _ _ _ _ _ _

theorem call_RadiusOk (ops : FloatLib K) (c : Call K) (st : ParticleSystemCPU K × RandState K)
    (hg : st.2.InUnit) (h : ∀ p ∈ st.1.m_aParticles, p.RadiusOk) :
    ∀ p ∈ (ParticleSystemCPU.call ops c st).1.m_aParticles, p.RadiusOk := by
  cases c with
  | setEmitter e => exact h
  | setParticleMesh m => exact h
  | setCollisionSpheres l => exact h
  | setNumberOfParticles n blank =>
    simp only [ParticleSystemCPU.call, ParticleSystemCPU.SetNumberOfParticles]
    split
    · intro p hp
      exact Or.inl (initLoop_radius _ _ _ p hp)
    · exact h
  | update dt => exact updateLoop_RadiusOk ops _ _ _ dt _ _ hg h

theorem run_RadiusOk (ops : FloatLib K) (cs : List (Call K))
    (st : ParticleSystemCPU K × RandState K)
    (hg : st.2.InUnit) (h : ∀ p ∈ st.1.m_aParticles, p.RadiusOk) :
    ∀ p ∈ (ParticleSystemCPU.run ops cs st).1.m_aParticles, p.RadiusOk := by
  induction cs generalizing st with
  | nil => exact h
  | cons c rest ih =>
    refine ih _ ?_ (call_RadiusOk ops c st hg h)
    intro n
    rw [call_draws]
    exact hg n

end RadiusInvariant

/-- C12: in every state reached from the freshly constructed system by any
sequence of `SetEmitter`, `SetParticleMesh`, `SetCollisionSpheres`,
`SetNumberOfParticles` and `Update` calls, with draws in `[0, 1)`, every
particle has `radius > 0`; precisely `radius = 0.5` or `radius` in
`[0.3, 0.9)`. -/
theorem radius_positive_invariant {K : Type} [LinearOrderedField K] (ops : FloatLib K)
    (emitter : Emitter K) (mesh : MeshRef) (g : RandState K) (cs : List (Call K))
    (hg : g.InUnit) :
    ∀ p ∈ (ParticleSystemCPU.run ops cs
        (ParticleSystemCPU.fresh emitter mesh, g)).1.m_aParticles,
      0 < p.radius ∧ (p.radius = 0.5 ∨ (0.3 ≤ p.radius ∧ p.radius < 0.9)) := by
  intro p hp
  have h := run_RadiusOk ops cs (ParticleSystemCPU.fresh emitter mesh, g) hg
    (fun q hq => by simp [ParticleSystemCPU.fresh] at hq) p hp
  exact ⟨RadiusOk_pos p h, h⟩

theorem radius_positive_invariant_witness :
    (halfRand ℝ).InUnit ∧
    ∀ p ∈ (ParticleSystemCPU.run ⟨Real.sqrt, Real.sin, Real.cos⟩
        [Call.setNumberOfParticles 2 (blankParticle ℝ), Call.update 30]
        (ParticleSystemCPU.fresh (unitEmitter ℝ) 7, halfRand ℝ)).1.m_aParticles,
      0 < p.radius ∧ (p.radius = 0.5 ∨ (0.3 ≤ p.radius ∧ p.radius < 0.9)) :=
  ⟨fun n => by norm_num [halfRand],
    radius_positive_invariant _ (unitEmitter ℝ) 7 (halfRand ℝ)
      [Call.setNumberOfParticles 2 (blankParticle ℝ), Call.update 30]
      (fun n => by norm_num [halfRand])⟩

/-! ## C19: what Update leaves unchanged -/

/-- C19: `Update(dt)` returns true, keeps the number of particles, the
emitter, the stored mesh reference, the sphere list and the squared-radius
cache; every particle keeps its mesh reference, and a particle that is not
respawned in the call keeps its radius and colour. -/
theorem update_frame {K : Type} [LinearOrderedField K] (ops : FloatLib K)
    (sys : ParticleSystemCPU K) (dt : K) (g : RandState K) :
    (sys.Update ops dt g).1 = true ∧
    (sys.Update ops dt g).2.1.m_aParticles.length = sys.m_aParticles.length ∧
    (sys.Update ops dt g).2.1.m_sEmitter = sys.m_sEmitter ∧
    (sys.Update ops dt g).2.1.m_ParticleMesh = sys.m_ParticleMesh ∧
    (sys.Update ops dt g).2.1.m_aSpheres = sys.m_aSpheres ∧
    (sys.Update ops dt g).2.1.m_aSquaredRadii = sys.m_aSquaredRadii ∧
    ∀ (i : Nat) (p : Particle K), sys.m_aParticles[i]? = some p →
      ∃ q, (sys.Update ops dt g).2.1.m_aParticles[i]? = some q ∧ q.pMesh = p.pMesh ∧
        (¬ p.lifespan - dt < 0 → q.radius = p.radius ∧ q.color = p.color) := by
  refine ⟨rfl, updateLoop_length _ _ _ _ _ _ _, rfl, rfl, rfl, rfl, ?_⟩
  intro i p hp
  exact ⟨_, Update_get ops sys dt g i p hp, updateParticle_pMesh _ _ _ _ _ _ _,
    updateParticle_radius_alive _ _ _ _ _ _ _⟩

theorem update_frame_witness :
    (sphereField ℝ).m_aParticles[1]? = some (fallingParticle ℝ) ∧
    ¬ (fallingParticle ℝ).lifespan - 1 / 10 < 0 ∧
    ∃ q, ((sphereField ℝ).Update ⟨Real.sqrt, Real.sin, Real.cos⟩ (1 / 10)
        (halfRand ℝ)).2.1.m_aParticles[1]? = some q ∧ q.pMesh = (fallingParticle ℝ).pMesh ∧
      q.radius = (fallingParticle ℝ).radius ∧ q.color = (fallingParticle ℝ).color := by
  obtain ⟨q, hq, hm, hrc⟩ := (update_frame ⟨Real.sqrt, Real.sin, Real.cos⟩ (sphereField ℝ)
    (1 / 10) (halfRand ℝ)).2.2.2.2.2.2 1 (fallingParticle ℝ) (by simp [sphereField])
  have hal : ¬ (fallingParticle ℝ).lifespan - 1 / 10 < 0 := by norm_num [fallingParticle]
  exact ⟨by simp [sphereField], hal, q, hq, hm, hrc hal⟩

/-! ## C14 and C15: what EmitParticle writes -/

/-- C14: with `a`, `b`, `c` the first three draws, in that order,
`EmitParticle` sets `position = T * (r * sin a, u, r * cos a, 1)` where
`u = b * height` and `r = c * radius` (sine and cosine of the raw draw),
and `velocity = position * a * 4`; with draws in `[0, 1)` the velocity is
the position scaled by the non-negative factor `a * 4`. -/
theorem emission_position_velocity {K : Type} [LinearOrderedField K] (ops : FloatLib K)
    (p : Particle K) (em : Emitter K) (seed : K) (g : RandState K) (hg : g.InUnit) :
    (EmitParticle ops p em seed g).1.position =
      (em.mTransformation.mulVec
        ⟨g.draws (g.cursor + 2) * em.fRadius * ops.sin (g.draws g.cursor),
          g.draws (g.cursor + 1) * em.fHeight,
          g.draws (g.cursor + 2) * em.fRadius * ops.cos (g.draws g.cursor), 1⟩).toVec3 ∧
    (EmitParticle ops p em seed g).1.velocity =
      ((EmitParticle ops p em seed g).1.position.scale (g.draws g.cursor)).scale 4 ∧
    0 ≤ g.draws g.cursor * 4 ∧
    (EmitParticle ops p em seed g).1.velocity =
      (EmitParticle ops p em seed g).1.position.scale (g.draws g.cursor * 4) := by
  refine ⟨rfl, rfl, ?_, ?_⟩
  · have := (hg g.cursor).1
    linarith
  · simp only [EmitParticle, randf, PVRTVec3.scale, mul_assoc]

theorem emission_position_velocity_witness :
    (halfRand ℝ).InUnit ∧
    (EmitParticle ⟨Real.sqrt, Real.sin, Real.cos⟩ (expiredParticle ℝ) (unitEmitter ℝ) (-1)
        (halfRand ℝ)).1.velocity =
      (EmitParticle ⟨Real.sqrt, Real.sin, Real.cos⟩ (expiredParticle ℝ) (unitEmitter ℝ) (-1)
        (halfRand ℝ)).1.position.scale ((halfRand ℝ).draws (halfRand ℝ).cursor * 4) :=
  ⟨fun n => by norm_num [halfRand],
    (emission_position_velocity ⟨Real.sqrt, Real.sin, Real.cos⟩ (expiredParticle ℝ)
      (unitEmitter ℝ) (-1) (halfRand ℝ) (fun n => by norm_num [halfRand])).2.2.2⟩

/-- C15: with draws in `[0, 1)`, `EmitParticle` sets `radius = 0.3 + 0.6 * x`
for the fourth draw `x`, so the radius lies in `[0.3, 0.9)`, and sets the
colour to `(r, g, b, 1)` with `r`, `g`, `b` the next three draws, each in
`[0, 1)`. -/
theorem emission_size_colour {K : Type} [LinearOrderedField K] (ops : FloatLib K)
    (p : Particle K) (em : Emitter K) (seed : K) (g : RandState K) (hg : g.InUnit) :
    (EmitParticle ops p em seed g).1.radius = 0.3 + 0.6 * g.draws (g.cursor + 3) ∧
    0.3 ≤ (EmitParticle ops p em seed g).1.radius ∧
    (EmitParticle ops p em seed g).1.radius < 0.9 ∧
    (EmitParticle ops p em seed g).1.color =
      ⟨g.draws (g.cursor + 4), g.draws (g.cursor + 5), g.draws (g.cursor + 6), 1⟩ ∧
    (0 ≤ (EmitParticle ops p em seed g).1.color.x ∧
      (EmitParticle ops p em seed g).1.color.x < 1) ∧
    (0 ≤ (EmitParticle ops p em seed g).1.color.y ∧
      (EmitParticle ops p em seed g).1.color.y < 1) ∧
    (0 ≤ (EmitParticle ops p em seed g).1.color.z ∧
      (EmitParticle ops p em seed g).1.color.z < 1) ∧
    (EmitParticle ops p em seed g).1.color.w = 1 := by
  obtain ⟨hlo, hhi⟩ := EmitParticle_radius_range ops p em seed g hg
  refine ⟨?_, hlo, hhi, rfl, hg _, hg _, hg _, rfl⟩
  rw [EmitParticle_radius, mul_comm]

theorem emission_size_colour_witness :
    (halfRand ℝ).InUnit ∧
    (EmitParticle ⟨Real.sqrt, Real.sin, Real.cos⟩ (expiredParticle ℝ) (unitEmitter ℝ) (-1)
        (halfRand ℝ)).1.radius < 0.9 :=
  ⟨fun n => by norm_num [halfRand],
    (emission_size_colour ⟨Real.sqrt, Real.sin, Real.cos⟩ (expiredParticle ℝ)
      (unitEmitter ℝ) (-1) (halfRand ℝ) (fun n => by norm_num [halfRand])).2.2.1⟩

/-! ## C20: the seed is not read -/

section Seed

variable {K : Type} [LinearOrderedField K]

/-- A respawn overwrites the lifespan, so two particles that differ only in
an expired lifespan are respawned alike. -/
theorem updateParticle_lifespan_irrelevant (ops : FloatLib K) (em : Emitter K)
    (sp : List (Sphere K)) (ra : List K) (dt : K) (p : Particle K) (l2 : K)
    (g : RandState K) (h1 : p.lifespan - dt < 0) (h2 : l2 - dt < 0) :
    updateParticle ops em sp ra dt { p with lifespan := l2 } g =
      updateParticle ops em sp ra dt p g := by
  rw [updateParticle_respawn ops em sp ra dt p g h1,
    updateParticle_respawn ops em sp ra dt { p with lifespan := l2 } g h2]
  rfl

theorem updateLoop_set (ops : FloatLib K) (em : Emitter K)
    (sp : List (Sphere K)) (ra : List K) (dt : K) (l : List (Particle K)) (i : Nat)
    (p p2 : Particle K) (hp : l[i]? = some p)
    (h : ∀ g, updateParticle ops em sp ra dt p2 g = updateParticle ops em sp ra dt p g)
    (g : RandState K) :
    updateLoop ops em sp ra dt (l.set i p2) g = updateLoop ops em sp ra dt l g := by
  induction l generalizing i g with
  | nil => simp at hp
  | cons a as ih =>
    cases i with
    | zero =>
      simp at hp
      subst hp
      simp [updateLoop, h]
    | succ j =>
      simp at hp
      simp [updateLoop, ih j hp]

end Seed

/-- C20: `EmitParticle` returns the same particle and the same generator for
any two seeds; consequently, replacing the lifespan of a particle that is
respawned in `Update(dt)` by any other lifespan that also expires changes
nothing in the result of `Update(dt)`. -/
theorem seed_non_interference {K : Type} [LinearOrderedField K] (ops : FloatLib K)
    (sys : ParticleSystemCPU K) (dt : K) (g : RandState K) (i : Nat) (p : Particle K)
    (l2 : K) (hp : sys.m_aParticles[i]? = some p) (h1 : p.lifespan - dt < 0)
    (h2 : l2 - dt < 0) :
    (∀ (q : Particle K) (em : Emitter K) (s1 s2 : K) (r : RandState K),
      EmitParticle ops q em s1 r = EmitParticle ops q em s2 r) ∧
    ({ sys with m_aParticles := sys.m_aParticles.set i { p with lifespan := l2 } }).Update
        ops dt g = sys.Update ops dt g := by
  refine ⟨fun q em s1 s2 r => rfl, ?_⟩
  simp only [ParticleSystemCPU.Update]
  rw [updateLoop_set ops _ _ _ dt sys.m_aParticles i p { p with lifespan := l2 } hp
    (fun r => updateParticle_lifespan_irrelevant ops _ _ _ dt p l2 r h1 h2)]

theorem seed_non_interference_witness :
    (groundField ℝ).m_aParticles[0]? = some (expiredParticle ℝ) ∧
    (expiredParticle ℝ).lifespan - 1 / 10 < 0 ∧ (-50 : ℝ) - 1 / 10 < 0 ∧
    ({ groundField ℝ with
        m_aParticles := (groundField ℝ).m_aParticles.set 0
          { expiredParticle ℝ with lifespan := -50 } }).Update
        ⟨Real.sqrt, Real.sin, Real.cos⟩ (1 / 10) (halfRand ℝ) =
      (groundField ℝ).Update ⟨Real.sqrt, Real.sin, Real.cos⟩ (1 / 10) (halfRand ℝ) :=
  ⟨by simp [groundField], by norm_num [expiredParticle], by norm_num,
    (seed_non_interference ⟨Real.sqrt, Real.sin, Real.cos⟩ (groundField ℝ) (1 / 10)
      (halfRand ℝ) 0 (expiredParticle ℝ) (-50) (by simp [groundField])
      (by norm_num [expiredParticle]) (by norm_num)).2⟩

/-! ## C13: a zero time step -/

section ZeroStep

variable {K : Type} [LinearOrderedField K]

/-- With `step = 0` the decrement and the integration change nothing. -/
theorem integrate_zero (p : Particle K) :
    integrate 0 { p with lifespan := p.lifespan - 0 } = p := by
  obtain ⟨⟨px, py, pz⟩, ⟨vx, vy, vz⟩, r, c, l, m⟩ := p
  simp [integrate, PVRTVec3.add, PVRTVec3.scale]

theorem collideGround_above (p : Particle K) (h : p.radius ≤ p.position.y) :
    collideGround p = p := by
  simp [collideGround, not_lt.mpr h]

end ZeroStep

/-- C13, as stated, fails: the expired particle of `groundField`, respawned
by `Update(1/10)` with all draws `1/2`, is alive (lifespan `21.5`) at height
`1/2` with radius `0.6`; the following `Update(0)` lifts it to height `0.6`
in the ground-plane test, so its position changes in a zero step. -/
theorem zero_step_moves_sunk_particle :
    ¬ ∀ (i : Nat) (p q : Particle ℝ),
      ((groundField ℝ).Update ⟨Real.sqrt, Real.sin, Real.cos⟩ (1 / 10)
        (halfRand ℝ)).2.1.m_aParticles[i]? = some p →
      0 ≤ p.lifespan →
      (((groundField ℝ).Update ⟨Real.sqrt, Real.sin, Real.cos⟩ (1 / 10)
          (halfRand ℝ)).2.1.Update ⟨Real.sqrt, Real.sin, Real.cos⟩ 0
        ((groundField ℝ).Update ⟨Real.sqrt, Real.sin, Real.cos⟩ (1 / 10)
          (halfRand ℝ)).2.2).2.1.m_aParticles[i]? = some q →
      q.position = p.position ∧ q.velocity = p.velocity := by
  intro h
  have hp := Update_get ⟨Real.sqrt, Real.sin, Real.cos⟩ (groundField ℝ) (1 / 10)
    (halfRand ℝ) 0 (expiredParticle ℝ) (by simp [groundField])
  have hq := Update_get ⟨Real.sqrt, Real.sin, Real.cos⟩
    ((groundField ℝ).Update ⟨Real.sqrt, Real.sin, Real.cos⟩ (1 / 10) (halfRand ℝ)).2.1 0
    ((groundField ℝ).Update ⟨Real.sqrt, Real.sin, Real.cos⟩ (1 / 10) (halfRand ℝ)).2.2 0 _ hp
  have hlife : (0 : ℝ) ≤ (updateParticle ⟨Real.sqrt, Real.sin, Real.cos⟩
      (groundField ℝ).m_sEmitter (groundField ℝ).m_aSpheres (groundField ℝ).m_aSquaredRadii
      (1 / 10) (expiredParticle ℝ)
      ((groundField ℝ).randAt ⟨Real.sqrt, Real.sin, Real.cos⟩ (1 / 10)
        (halfRand ℝ) 0)).1.lifespan := by
    rw [updateParticle_respawn _ _ _ _ _ _ _ (by norm_num [expiredParticle]),
      respawn_lifespan]
    norm_num [ParticleSystemCPU.randAt, updateLoop, halfRand]
  have hy := congrArg PVRTVec3.y (h 0 _ _ hp hlife hq).1
  rw [updateParticle_alive _ _ _ _ _ _ _ (by simpa using hlife), integrate_zero] at hy
  rw [updateParticle_respawn _ _ _ _ _ _ _ (by norm_num [expiredParticle])] at hy
  norm_num [ParticleSystemCPU.Update, groundField, collideSpheres, sphereLoop, collideGround,
    respawn, EmitParticle, randf, halfRand, unitEmitter, expiredParticle,
    ParticleSystemCPU.randAt, updateLoop,
    PVRTMat4.identity, PVRTMat4.mulVec, PVRTVec4.dot, PVRTVec4.toVec3, PVRTVec3.scale] at hy

/-- C13, amended: in `Update(0)` a particle whose lifespan is `≥ 0` is not
integrated, only passed through the sphere phase and the ground-plane test;
if it passes no sphere test and has `position.y ≥ radius` it is left exactly
as it was, position and velocity included; a particle whose lifespan is
`< 0` is respawned. -/
theorem zero_step {K : Type} [LinearOrderedField K] (ops : FloatLib K)
    (sys : ParticleSystemCPU K) (g : RandState K) (i : Nat) (p : Particle K)
    (hp : sys.m_aParticles[i]? = some p) :
    (0 ≤ p.lifespan →
      (sys.Update ops 0 g).2.1.m_aParticles[i]? =
        some (collideGround (collideSpheres ops sys.m_aSpheres sys.m_aSquaredRadii p))) ∧
    (0 ≤ p.lifespan →
      (∀ j, j < sys.m_aSpheres.length →
        ¬ sphereHit sys.m_aSpheres sys.m_aSquaredRadii p j) →
      p.radius ≤ p.position.y →
      (sys.Update ops 0 g).2.1.m_aParticles[i]? = some p) ∧
    (p.lifespan < 0 →
      (sys.Update ops 0 g).2.1.m_aParticles[i]? =
        some (respawn ops sys.m_sEmitter { p with lifespan := p.lifespan - 0 }
          (sys.randAt ops 0 g i)).1) := by
  have hU := Update_get ops sys 0 g i p hp
  have hlive : 0 ≤ p.lifespan → (sys.Update ops 0 g).2.1.m_aParticles[i]? =
      some (collideGround (collideSpheres ops sys.m_aSpheres sys.m_aSquaredRadii p)) := by
    intro h0
    rw [hU, updateParticle_alive ops _ _ _ 0 p _ (by simpa using h0), integrate_zero]
  refine ⟨hlive, ?_, ?_⟩
  · intro h0 hno hy
    rw [hlive h0, collideSpheres_no_hit ops _ _ p hno, collideGround_above p hy]
  · intro hneg
    rw [hU, updateParticle_respawn ops _ _ _ 0 p _ (by simpa using hneg)]

theorem zero_step_witness :
    (risingField ℝ).m_aParticles[0]? = some (risingParticle ℝ) ∧
    (0 : ℝ) ≤ (risingParticle ℝ).lifespan ∧
    (risingParticle ℝ).radius ≤ (risingParticle ℝ).position.y ∧
    ((risingField ℝ).Update ⟨Real.sqrt, Real.sin, Real.cos⟩ 0
      (halfRand ℝ)).2.1.m_aParticles[0]? = some (risingParticle ℝ) := by
  have hp : (risingField ℝ).m_aParticles[0]? = some (risingParticle ℝ) := by
    simp [risingField]
  have hl : (0 : ℝ) ≤ (risingParticle ℝ).lifespan := by norm_num [risingParticle]
  have hy : (risingParticle ℝ).radius ≤ (risingParticle ℝ).position.y := by
    norm_num [risingParticle]
  refine ⟨hp, hl, hy, ?_⟩
  exact (zero_step ⟨Real.sqrt, Real.sin, Real.cos⟩ (risingField ℝ) (halfRand ℝ) 0
    (risingParticle ℝ) hp).2.1 hl
    (fun j hj => by
      have hj3 : j < 3 := by simpa [risingField, demoSpheres] using hj
      interval_cases j <;>
        norm_num [sphereHit, risingField, demoSpheres, risingParticle,
          PVRTVec3.sub, PVRTVec3.lenSqr])
    hy

/-! ## C18: the order of the particles -/

section Order

variable {K : Type} [LinearOrderedField K]

theorem expires_iff (dt : K) (p : Particle K) : expires dt p = true ↔ p.lifespan - dt < 0 := by
  simp [expires]

/-- An iteration advances the generator by eight draws when the particle is
respawned and leaves it alone otherwise. -/
theorem updateParticle_rand (ops : FloatLib K) (em : Emitter K) (sp : List (Sphere K))
    (ra : List K) (dt : K) (p : Particle K) (g : RandState K) :
    (updateParticle ops em sp ra dt p g).2 =
      { g with cursor := g.cursor + 8 * (if expires dt p then 1 else 0) } := by
  by_cases h : p.lifespan - dt < 0
  · rw [updateParticle_respawn ops em sp ra dt p g h]
    simp [(expires_iff dt p).mpr h, respawn, EmitParticle, randf]
  · rw [updateParticle_alive ops em sp ra dt p g h]
    have hf : expires dt p = false := by simpa [expires] using h
    simp [hf]

/-- The generator after the loop has advanced by eight draws for every
respawned particle. -/
theorem updateLoop_rand (ops : FloatLib K) (em : Emitter K) (sp : List (Sphere K))
    (ra : List K) (dt : K) (l : List (Particle K)) (g : RandState K) :
    (updateLoop ops em sp ra dt l g).2 =
      { g with cursor := g.cursor + 8 * l.countP (expires dt) } := by
  induction l generalizing g with
  | nil => simp [updateLoop]
  | cons a as ih =>
    simp only [updateLoop, ih, updateParticle_rand, List.countP_cons]
    congr 1
    split <;> omega

/-- The result of an iteration on a live particle does not depend on the
generator. -/
theorem updateParticle_alive_any (ops : FloatLib K) (em : Emitter K) (sp : List (Sphere K))
    (ra : List K) (dt : K) (p : Particle K) (g g2 : RandState K)
    (h : ¬ p.lifespan - dt < 0) :
    (updateParticle ops em sp ra dt p g).1 = (updateParticle ops em sp ra dt p g2).1 := by
  rw [updateParticle_alive ops em sp ra dt p g h, updateParticle_alive ops em sp ra dt p g2 h]

end Order

/-- C18, as stated, fails: with two expired particles and the draws
`1/2, 1/3, 1/4, ...` (all in `[0, 1)`), `Update` on the reversed array is not
the reverse of `Update` on the array: the particle in front always gets the
first eight draws. -/
theorem order_matters_for_respawns :
    (harmonicRand ℝ).InUnit ∧
    (expiredField ℝ (expiredParticle ℝ) (expiredParticle2 ℝ)).m_aParticles.reverse =
      (expiredField ℝ (expiredParticle2 ℝ) (expiredParticle ℝ)).m_aParticles ∧
    ((expiredField ℝ (expiredParticle2 ℝ) (expiredParticle ℝ)).Update
        ⟨Real.sqrt, Real.sin, Real.cos⟩ (1 / 10) (harmonicRand ℝ)).2.1.m_aParticles ≠
      ((expiredField ℝ (expiredParticle ℝ) (expiredParticle2 ℝ)).Update
        ⟨Real.sqrt, Real.sin, Real.cos⟩ (1 / 10) (harmonicRand ℝ)).2.1.m_aParticles.reverse := by
  refine ⟨?_, by simp [expiredField], ?_⟩
  · intro n
    have hpos : (0 : ℝ) < (n : ℝ) + 2 := by positivity
    simp only [harmonicRand]
    constructor
    · positivity
    · rw [div_lt_one hpos]
      have : (0 : ℝ) ≤ (n : ℝ) := Nat.cast_nonneg n
      linarith
  · intro h
    have h0 := congrArg (fun l => (l[0]?).map Particle.lifespan) h
    simp only [ParticleSystemCPU.Update, expiredField, updateLoop, List.reverse_cons,
      List.reverse_nil, List.nil_append, List.singleton_append, List.getElem?_cons_zero,
      Option.map_some', Option.some.injEq] at h0
    rw [updateParticle_respawn _ _ _ _ _ _ _ (by norm_num [expiredParticle2]),
      updateParticle_respawn _ _ _ _ _ _ _ (by norm_num [expiredParticle2]),
      updateParticle_respawn _ _ _ _ _ _ _ (by norm_num [expiredParticle]),
      respawn_lifespan, respawn_lifespan] at h0
    norm_num [respawn, EmitParticle, randf, harmonicRand] at h0

/-- C18, amended: take the same particle `p` at index `i` of the array and
at index `j` of any other array (a reordering, for instance).  If `p` is not
respawned, or if as many particles are respawned before index `j` there as
before index `i` here, `Update` leaves the same particle at `j` there as at
`i` here.  The generator after `Update` is the same for every reordering of
the array. -/
theorem order_matters_only_through_respawns {K : Type} [LinearOrderedField K]
    (ops : FloatLib K) (sys : ParticleSystemCPU K) (dt : K) (g : RandState K)
    (l2 : List (Particle K)) (i j : Nat) (p : Particle K)
    (hi : sys.m_aParticles[i]? = some p) (hj : l2[j]? = some p)
    (h : ¬ p.lifespan - dt < 0 ∨
      (l2.take j).countP (expires dt) = (sys.m_aParticles.take i).countP (expires dt)) :
    (({ sys with m_aParticles := l2 }).Update ops dt g).2.1.m_aParticles[j]? =
      (sys.Update ops dt g).2.1.m_aParticles[i]? ∧
    (l2.Perm sys.m_aParticles →
      (({ sys with m_aParticles := l2 }).Update ops dt g).2.2 = (sys.Update ops dt g).2.2) := by
  constructor
  · rw [Update_get ops sys dt g i p hi,
      Update_get ops { sys with m_aParticles := l2 } dt g j p hj]
    rcases h with h | h
    · rw [updateParticle_alive_any ops _ _ _ dt p _ (sys.randAt ops dt g i) h]
    · simp only [ParticleSystemCPU.randAt, updateLoop_rand, h]
  · intro hperm
    simp only [ParticleSystemCPU.Update, updateLoop_rand, hperm.countP_eq]

theorem order_matters_only_through_respawns_witness :
    (groundField ℝ).m_aParticles[1]? = some (fallingParticle ℝ) ∧
    [fallingParticle ℝ, expiredParticle ℝ][0]? = some (fallingParticle ℝ) ∧
    ¬ (fallingParticle ℝ).lifespan - 1 / 10 < 0 ∧
    (({ groundField ℝ with m_aParticles := [fallingParticle ℝ, expiredParticle ℝ] }).Update
        ⟨Real.sqrt, Real.sin, Real.cos⟩ (1 / 10) (harmonicRand ℝ)).2.1.m_aParticles[0]? =
      ((groundField ℝ).Update ⟨Real.sqrt, Real.sin, Real.cos⟩ (1 / 10)
        (harmonicRand ℝ)).2.1.m_aParticles[1]? :=
  ⟨by simp [groundField], by simp, by norm_num [fallingParticle],
    (order_matters_only_through_respawns ⟨Real.sqrt, Real.sin, Real.cos⟩ (groundField ℝ)
      (1 / 10) (harmonicRand ℝ) [fallingParticle ℝ, expiredParticle ℝ] 1 0
      (fallingParticle ℝ) (by simp [groundField]) (by simp)
      (Or.inl (by norm_num [fallingParticle]))).1⟩

/-! ## C16: forty seconds in steps of a tenth -/

section Scenario

variable {K : Type} [LinearOrderedField K]

theorem run_append (ops : FloatLib K) (cs ds : List (Call K))
    (st : ParticleSystemCPU K × RandState K) :
    ParticleSystemCPU.run ops (cs ++ ds) st =
      ParticleSystemCPU.run ops ds (ParticleSystemCPU.run ops cs st) := by
  induction cs generalizing st with
  | nil => rfl
  | cons c rest ih => simp [ParticleSystemCPU.run, ih]

/-- One more call at the end of a run of equal calls. -/
theorem run_replicate_succ (ops : FloatLib K) (c : Call K) (k : Nat)
    (st : ParticleSystemCPU K × RandState K) :
    ParticleSystemCPU.run ops (List.replicate (k + 1) c) st =
      ParticleSystemCPU.call ops c (ParticleSystemCPU.run ops (List.replicate k c) st) := by
  rw [List.replicate_succ', run_append]
  rfl

theorem run_draws (ops : FloatLib K) (cs : List (Call K))
    (st : ParticleSystemCPU K × RandState K) :
    (ParticleSystemCPU.run ops cs st).2.draws = st.2.draws := by
  induction cs generalizing st with
  | nil => rfl
  | cons c rest ih => rw [ParticleSystemCPU.run, ih, call_draws]

/-- An `Update` on a field with a single particle. -/
theorem call_update_single (ops : FloatLib K) (dt : K)
    (st : ParticleSystemCPU K × RandState K) (p : Particle K)
    (h : st.1.m_aParticles = [p]) :
    (ParticleSystemCPU.call ops (Call.update dt) st).1.m_aParticles =
      [(updateParticle ops st.1.m_sEmitter st.1.m_aSpheres st.1.m_aSquaredRadii dt p
        st.2).1] := by
  simp [ParticleSystemCPU.call, ParticleSystemCPU.Update, h, updateLoop]

/-- A single particle whose lifespan is below `(n + 1) * dt` expires in one
of the next `n + 1` updates of step `dt`. -/
theorem single_particle_expires (ops : FloatLib K) (dt : K) (n : Nat)
    (st : ParticleSystemCPU K × RandState K) (p : Particle K)
    (h : st.1.m_aParticles = [p]) (hl : p.lifespan - ((n : K) + 1) * dt < 0) :
    ∃ k, k ≤ n ∧ ∃ q,
      (ParticleSystemCPU.run ops (List.replicate k (Call.update dt)) st).1.m_aParticles = [q] ∧
      q.lifespan - dt < 0 := by
  induction n generalizing st p with
  | zero =>
    refine ⟨0, le_refl 0, p, h, ?_⟩
    simpa using hl
  | succ m ih =>
    by_cases hexp : p.lifespan - dt < 0
    · exact ⟨0, Nat.zero_le _, p, h, hexp⟩
    · have hnext := call_update_single ops dt st p h
      have hlife := updateParticle_alive_lifespan ops st.1.m_sEmitter st.1.m_aSpheres
        st.1.m_aSquaredRadii dt p st.2 hexp
      obtain ⟨k, hk, q, hq, hqexp⟩ := ih (ParticleSystemCPU.call ops (Call.update dt) st) _
        hnext (by
          rw [hlife]
          push_cast at hl ⊢
          linarith)
      exact ⟨k + 1, Nat.succ_le_succ hk, q, hq, hqexp⟩

end Scenario

/-- C16: start from the freshly constructed system with the emitter of
height 1, radius 1 and identity transform and no spheres, call
`SetNumberOfParticles(1)` and then `Update(1/10)` repeatedly, with draws in
`[0, 1)`.  Among the first 400 updates there is one, the update number
`k + 1`, in which the single particle is respawned: before it the lifespan
minus `1/10` is negative, after it the lifespan lies in `[12, 31)`. -/
theorem forty_second_scenario {K : Type} [LinearOrderedField K] (ops : FloatLib K)
    (mesh : MeshRef) (blank : Particle K) (g : RandState K) (hg : g.InUnit) :
    ∃ k, k < 400 ∧ ∃ p q,
      (ParticleSystemCPU.run ops (List.replicate k (Call.update (1 / 10)))
        ((ParticleSystemCPU.fresh (unitEmitter K) mesh).SetNumberOfParticles
          blank 1 g).2).1.m_aParticles = [p] ∧
      p.lifespan - 1 / 10 < 0 ∧
      (ParticleSystemCPU.run ops (List.replicate (k + 1) (Call.update (1 / 10)))
        ((ParticleSystemCPU.fresh (unitEmitter K) mesh).SetNumberOfParticles
          blank 1 g).2).1.m_aParticles = [q] ∧
      12 ≤ q.lifespan ∧ q.lifespan < 31 := by
  have hstart : ((ParticleSystemCPU.fresh (unitEmitter K) mesh).SetNumberOfParticles
      blank 1 g).2.1.m_aParticles =
      [{ blank with lifespan := g.draws g.cursor * 20, radius := 0.5, pMesh := mesh }] := by
    simp [ParticleSystemCPU.SetNumberOfParticles, ParticleSystemCPU.fresh, clearAndResize,
      initLoop, randf, List.replicate]
  have hdraws : ((ParticleSystemCPU.fresh (unitEmitter K) mesh).SetNumberOfParticles
      blank 1 g).2.2.draws = g.draws := by
    simp [ParticleSystemCPU.SetNumberOfParticles, ParticleSystemCPU.fresh, initLoop_rand]
  obtain ⟨k, hk, p, hp, hexp⟩ := single_particle_expires ops (1 / 10) 199 _ _ hstart (by
    have h1 := (hg g.cursor).2
    show g.draws g.cursor * 20 - (((199 : Nat) : K) + 1) * (1 / 10) < 0
    push_cast
    linarith)
  have hnext := call_update_single ops (1 / 10) _ p hp
  rw [← run_replicate_succ] at hnext
  refine ⟨k, by omega, p, _, hp, hexp, hnext, ?_⟩
  rw [updateParticle_respawn ops _ _ _ _ p _ hexp]
  apply respawn_lifespan_range
  intro n
  rw [run_draws, hdraws]
  exact hg n

theorem forty_second_scenario_witness :
    (halfRand ℝ).InUnit ∧
    ∃ k, k < 400 ∧ ∃ p q,
      (ParticleSystemCPU.run ⟨Real.sqrt, Real.sin, Real.cos⟩
        (List.replicate k (Call.update (1 / 10)))
        ((ParticleSystemCPU.fresh (unitEmitter ℝ) 7).SetNumberOfParticles
          (blankParticle ℝ) 1 (halfRand ℝ)).2).1.m_aParticles = [p] ∧
      p.lifespan - 1 / 10 < 0 ∧
      (ParticleSystemCPU.run ⟨Real.sqrt, Real.sin, Real.cos⟩
        (List.replicate (k + 1) (Call.update (1 / 10)))
        ((ParticleSystemCPU.fresh (unitEmitter ℝ) 7).SetNumberOfParticles
          (blankParticle ℝ) 1 (halfRand ℝ)).2).1.m_aParticles = [q] ∧
      12 ≤ q.lifespan ∧ q.lifespan < 31 :=
  ⟨fun n => by norm_num [halfRand],
    forty_second_scenario _ 7 (blankParticle ℝ) (halfRand ℝ)
      (fun n => by norm_num [halfRand])⟩

end DrawLoadDemo
